import Mathlib

/-!
Verification development for the multi-stage test step engine
(`pkg/steps/multi_stage.go` of openshift-ci-tools).

The Go source is shallowly embedded below: pure helpers become Lean
functions, the cluster object store becomes an explicit association-list
state with "already exists" / "not found" as distinguishable error
outcomes, and the external collaborators (parameter store, resource
parser, base-pod generator, image-digest resolver, pod wait loop) become
record fields of `Oracles`, since only their narrow contracts are in
scope.  Contexts are modelled by the single bit the code observes:
whether `ctx.Done()` is closed at the check point.
-/

namespace MultiStage

/-! ## String helpers (Go `strings.HasPrefix` / `strings.TrimPrefix`) -/

/-- Modelled from the spec: Go's `strings.HasPrefix(s, p)`; the wrapped
command preamble matching in `addCliInjector` uses it. -/
def strStartsWith (p s : String) : Bool :=
  p.data.isPrefixOf s.data

/-- Modelled from the spec: Go's `strings.TrimPrefix(s, p)`. -/
def strTrimLeading (p s : String) : String :=
  if strStartsWith p s then ⟨s.data.drop p.data.length⟩ else s

/-! ## Constants of `multi_stage.go` -/

/-- `MultiStageTestLabel`: label marking a pod as part of a multi-stage test. -/
def MultiStageTestLabel : String := "ci.openshift.io/multi-stage-test"

/-- `ClusterProfileMountPath`. -/
def ClusterProfileMountPath : String := "/var/run/secrets/ci.openshift.io/cluster-profile"

/-- `SecretMountPath`: where the shared dir secret is mounted. -/
def SecretMountPath : String := "/var/run/secrets/ci.openshift.io/multi-stage"

/-- `SecretMountEnv`. -/
def SecretMountEnv : String := "SHARED_DIR"

/-- `ClusterProfileMountEnv`. -/
def ClusterProfileMountEnv : String := "CLUSTER_PROFILE_DIR"

/-- `CliMountPath`. -/
def CliMountPath : String := "/cli"

/-- `CliEnv`. -/
def CliEnv : String := "CLI_DIR"

/-- `CommandPrefix` of the source: the fixed shell preamble prepended to
every step's command (writable kubeconfig copy, scratch home fallback). -/
def commandPreamble : String :=
  "#!/bin/bash\n" ++
  "set -eu\n" ++
  "if [[ -e $\x7bKUBECONFIG:-\x7d ]]; then WRITEABLE_KUBECONFIG_LOCATION=$(mktemp) && cp $KUBECONFIG $WRITEABLE_KUBECONFIG_LOCATION && export KUBECONFIG=$WRITEABLE_KUBECONFIG_LOCATION && unset WRITEABLE_KUBECONFIG_LOCATION; fi\n" ++
  "if ! [[ -d $\x7bHOME:-\x7d ]]; then export HOME=/alabama; fi\n"

/-- The PATH line spliced into the preamble by `addCliInjector`. -/
def pathExportLine : String := "export PATH=\"$\x7bPATH\x7d:$\x7bCLI_DIR\x7d\""

/-- `multiStageTestStepContainerName`. -/
def testContainerName : String := "test"

/-- Modelled from the spec: `api.PipelineImageStream`, the internal
pipeline image stream name (defined outside this file in the repo). -/
def pipelineImageStream : String := "pipeline"

/-- Modelled from the spec: `ProwJobIdLabel`, a base-pod label removed by
`generatePods` (defined outside this file in the repo). -/
def prowJobIdLabel : String := "prow.k8s.io/id"

/-- Modelled from the spec: `annotationSaveContainerLogs` (defined outside
this file in the repo). -/
def annotationSaveContainerLogs : String := "ci.openshift.io/save-container-logs"

/-- Modelled from the spec: `homeVolumeName` (defined outside this file in
the repo): the scratch home directory volume. -/
def homeVolumeName : String := "home"

/-- Modelled from the spec: `apiCIRegistry` (defined outside this file in
the repo): registry host for the secret-wrapper image. -/
def apiCIRegistry : String := "registry.svc.ci.openshift.org"

/-- Modelled from the spec: `api.LatestReleaseName`. -/
def latestReleaseName : String := "latest"

/-- Modelled from the spec: `utils.ReleaseImageEnv` for a release name. -/
def releaseImageEnv (release : String) : String := "RELEASE_IMAGE_" ++ release

/-- Modelled from the spec: `DefaultLeaseEnv`, the lease-provided cluster
type variable. -/
def DefaultLeaseEnv : String := "LEASED_RESOURCE"

/-- Modelled from the spec: `utils.ImageFormatEnv`. -/
def imageFormatEnv : String := "IMAGE_FORMAT"

/-- `envForProfile`: the fixed set of profile-related parameters. -/
def envForProfile : List String :=
  [releaseImageEnv latestReleaseName, DefaultLeaseEnv, imageFormatEnv]

/-! ## Data model -/

/-- A Kubernetes container environment variable. -/
structure EnvVar where
  Name : String
  Value : String
deriving DecidableEq, Repr

/-- A volume mount of a container. -/
structure VolumeMount where
  Name : String
  MountPath : String
deriving DecidableEq, Repr

/-- The volume sources the engine uses: empty scratch dirs and secrets. -/
inductive VolumeSource where
  | emptyDir
  | secret (secretName : String)
deriving DecidableEq, Repr

/-- A pod volume. -/
structure Volume where
  Name : String
  VolumeSource : VolumeSource
deriving DecidableEq, Repr

/-- A container of a workload pod. -/
structure Container where
  Name : String
  Image : String
  Command : List String
  Args : List String
  Env : List EnvVar
  VolumeMounts : List VolumeMount
  Resources : List (String × String)
deriving DecidableEq, Repr

/-- A workload pod (ObjectMeta and PodSpec flattened to the fields the
engine reads or writes). -/
structure Pod where
  Name : String
  Namespace : String
  Labels : List (String × String)
  Annotations : List (String × String)
  OwnerReferences : List String
  ActiveDeadlineSeconds : Option Int
  ServiceAccountName : String
  TerminationGracePeriodSeconds : Option Int
  Volumes : List Volume
  InitContainers : List Container
  Containers : List Container
deriving DecidableEq, Repr

/-- `api.CredentialReference`: a donor-namespace secret to mirror. -/
structure CredentialReference where
  Namespace : String
  Name : String
  MountPath : String
deriving DecidableEq, Repr

/-- `api.StepParameter`: declared parameter with optional default. -/
structure StepParameter where
  Name : String
  Default : Option String
deriving DecidableEq, Repr

/-- `api.StepDependency`. -/
structure StepDependency where
  Name : String
  Env : String
deriving DecidableEq, Repr

/-- `api.StepLease`: the code only reads the `Env` binding. -/
structure StepLease where
  ResourceType : String
  Env : String
deriving DecidableEq, Repr

/-- `api.LiteralTestStep` restricted to the fields `multi_stage.go`
reads.  `FromImageTag` models the result of the `step.FromImageTag()`
method (defined outside this file in the repo). -/
structure LiteralTestStep where
  As : String
  From : String
  FromImageTag : Option String
  Cli : String
  Commands : String
  Resources : String
  Environment : List StepParameter
  Credentials : List CredentialReference
  Dependencies : List StepDependency
  ArtifactDir : String
  ActiveDeadlineSeconds : Option Int
  TerminationGracePeriodSeconds : Option Int
  ReadonlySharedDir : Bool
  OptionalOnSuccess : Option Bool
deriving DecidableEq, Repr

/-- The `jobSpec` fields the engine reads (`Namespace()`, `JobNameHash()`,
`Owner()`). -/
structure JobSpec where
  Namespace : String
  JobNameHash : String
  Owner : Option String
deriving DecidableEq, Repr

/-- `multiStageTestStep`: the engine state constructed once per test. -/
structure MultiStageTestStep where
  name : String
  profile : String
  env : List (String × String)
  pre : List LiteralTestStep
  test : List LiteralTestStep
  post : List LiteralTestStep
  allowSkipOnSuccess : Option Bool
  leases : List StepLease
deriving DecidableEq, Repr

/-- `profileSecretName`. -/
def profileSecretName (s : MultiStageTestStep) : String :=
  s.name ++ "-cluster-profile"

/-! ## Cluster object store model

The spec's consumed contract: create/get/delete/bulk-delete-by-label with
"already exists" and "not found" as distinguishable outcomes. -/

/-- Distinguishable remote-store error kinds. -/
inductive KErr where
  | alreadyExists
  | notFound
  | other (msg : String)
deriving DecidableEq, Repr

/-- Payload of a stored object; enough to distinguish the objects the
provisioner creates. -/
inductive ObjPayload where
  | serviceAccount
  | role (rules : List (List String × List String × List String × List String))
  | roleBinding (roleRef : String) (subjects : List String)
  | secret (typ : String) (data : List (String × String))
deriving DecidableEq, Repr

/-- A stored cluster object. -/
structure Obj where
  kind : String
  ns : String
  name : String
  labels : List (String × String)
  payload : ObjPayload
deriving DecidableEq, Repr

/-- The identity of an object in the store. -/
def Obj.key (o : Obj) : String × String × String := (o.kind, o.ns, o.name)

/-- The cluster object store. -/
abbrev Cluster := List Obj

/-- Whether an object with the given identity exists. -/
def hasKey (c : Cluster) (k : String × String × String) : Bool :=
  c.any (fun o => o.key == k)

/-- `client.Create`: fails with "already exists" when the identity is taken. -/
def createObj (c : Cluster) (o : Obj) : Except KErr Cluster :=
  if hasKey c o.key then .error .alreadyExists else .ok (c ++ [o])

/-- `client.Delete`: fails with "not found" when the identity is absent. -/
def deleteKey (c : Cluster) (k : String × String × String) : Except KErr Cluster :=
  if hasKey c k then .ok (c.filter (fun o => !(o.key == k))) else .error .notFound

/-- `client.Get` by identity. -/
def getKey (c : Cluster) (k : String × String × String) : Option Obj :=
  c.find? (fun o => o.key == k)

/-! ## External collaborators (spec §6 contracts) -/

/-- The narrow external contracts `multi_stage.go` consumes, plus the
configuration predicates defined outside this file in the repo. -/
structure Oracles where
  /-- `api.Parameters.Get`. -/
  params : String → Except String String
  /-- `config.IsPipelineImage`. -/
  isPipelineImage : String → Bool
  /-- `config.BuildsImage`. -/
  buildsImage : String → Bool
  /-- `config.DependencyParts`: dependency to (imageStream, name). -/
  dependencyParts : StepDependency → String × String
  /-- `api.ReleaseStreamFor`. -/
  releaseStreamFor : String → String
  /-- `profile.ClusterType()`. -/
  clusterType : String → String
  /-- `resourcesFor`: parse a step's declared resource request. -/
  resourcesFor : String → Except String (List (String × String))
  /-- Failure behaviour of the external `generateBasePod`, keyed by pod name. -/
  basePodErr : String → Option String
  /-- `utils.ImageDigestFor`: (imageStream, name) to pull digest. -/
  imageDigestFor : String → String → Except String String
  /-- `resolveOptionalOperator` followed by `asEnv`. -/
  optionalOperatorEnv : Except String (Option (List EnvVar))
  /-- Terminal outcome of `createOrRestartPod` + `waitForPodCompletion`
  for a pod name: `none` = success, `some msg` = failure. -/
  podResult : String → Option String
  /-- Outcome of the bulk `DeleteAllOf` used by cancellation cleanup. -/
  deleteAllOfResult : Option KErr

/-- Modelled from the spec: `generateBasePod` (defined outside this file
in the repo) builds the base workload definition: a pod with the given
name in the job namespace, one main container with the given name,
image, command and parsed resources, and the base labels later adjusted
by `generatePods`. -/
def generateBasePod (o : Oracles) (js : JobSpec) (name containerName : String)
    (command : List String) (image : String) (resources : List (String × String))
    (artifactDir : String) : Except String Pod :=
  match o.basePodErr name with
  | some e => .error e
  | none => .ok {
      Name := name
      Namespace := js.Namespace
      Labels := [(prowJobIdLabel, js.JobNameHash)]
      Annotations := [("artifact-dir", artifactDir)]
      OwnerReferences := []
      ActiveDeadlineSeconds := none
      ServiceAccountName := ""
      TerminationGracePeriodSeconds := none
      Volumes := []
      InitContainers := []
      Containers := [{
        Name := containerName
        Image := image
        Command := command
        Args := []
        Env := []
        VolumeMounts := []
        Resources := resources }] }

/-! ## Access provisioner (`createSecret`, `createCredentials`, `setupRBAC`) -/

/-- The empty shared secret named after the test. -/
def sharedSecret (s : MultiStageTestStep) (js : JobSpec) : Obj :=
  { kind := "Secret", ns := js.Namespace, name := s.name, labels := [], payload := .secret "" [] }

/-- `createSecret`: delete the shared secret tolerating "not found", then
create it empty. -/
def createSecret (s : MultiStageTestStep) (js : JobSpec) (c : Cluster) : Except KErr Cluster :=
  match deleteKey c (sharedSecret s js).key with
  | .ok c1 => createObj c1 (sharedSecret s js)
  | .error .notFound => createObj c (sharedSecret s js)
  | .error e => .error e

/-- The collision-resistant derived name for a mirrored credential:
`fmt.Sprintf("%s-%s", credential.Namespace, credential.Name)`. -/
def credentialName (ns name : String) : String := ns ++ "-" ++ name

/-- The store identity of a credential's donor secret. -/
def sourceKey (cred : CredentialReference) : String × String × String :=
  ("Secret", cred.Namespace, cred.Name)

/-- The mirrored copy of a donor secret, placed in the test namespace
under the derived name, preserving type and data. -/
def mirrorObj (js : JobSpec) (cred : CredentialReference) (raw : Obj) : Obj :=
  { kind := "Secret", ns := js.Namespace,
    name := credentialName cred.Namespace cred.Name,
    labels := [], payload := raw.payload }

/-- Go map assignment `toCreate[name] = secret`: overwrite the value of an
existing key, else add the binding. -/
def assocSet (acc : List (String × Obj)) (k : String) (v : Obj) : List (String × Obj) :=
  match acc with
  | [] => [(k, v)]
  | (k1, v1) :: rest => if k1 = k then (k, v) :: rest else (k1, v1) :: assocSet rest k v

/-- The `toCreate` map of `createCredentials`: read every donor secret
(failure is fatal), dedup by derived name. -/
def buildToCreate (js : JobSpec) (c : Cluster) :
    List CredentialReference → List (String × Obj) → Except KErr (List (String × Obj))
  | [], acc => .ok acc
  | cred :: rest, acc =>
    match getKey c (sourceKey cred) with
    | none => .error .notFound
    | some raw =>
      buildToCreate js c rest
        (assocSet acc (credentialName cred.Namespace cred.Name) (mirrorObj js cred raw))

/-- The creation loop of `createCredentials`: create each mirror,
tolerating "already exists". -/
def createAll (c : Cluster) : List (String × Obj) → Except KErr Cluster
  | [] => .ok c
  | (_, o) :: rest =>
    match createObj c o with
    | .ok c1 => createAll c1 rest
    | .error .alreadyExists => createAll c rest
    | .error e => .error e

/-- All credential references across the declared steps, in
`append(s.pre, append(s.test, s.post...)...)` order. -/
def stepCredentials (s : MultiStageTestStep) : List CredentialReference :=
  (s.pre ++ (s.test ++ s.post)).flatMap (fun step => step.Credentials)

/-- `createCredentials`. -/
def createCredentials (s : MultiStageTestStep) (js : JobSpec) (c : Cluster) : Except KErr Cluster :=
  match buildToCreate js c (stepCredentials s) [] with
  | .error e => .error e
  | .ok toCreate => createAll c toCreate

/-- The service identity created by `setupRBAC`. -/
def saObj (s : MultiStageTestStep) (js : JobSpec) : Obj :=
  { kind := "ServiceAccount", ns := js.Namespace, name := s.name,
    labels := [(MultiStageTestLabel, s.name)], payload := .serviceAccount }

/-- The role created by `setupRBAC` (create/list rolebindings; get/update
the named shared secret; get imagestreams/layers). -/
def roleObj (s : MultiStageTestStep) (js : JobSpec) : Obj :=
  { kind := "Role", ns := js.Namespace, name := s.name,
    labels := [(MultiStageTestLabel, s.name)],
    payload := .role [
      (["rbac.authorization.k8s.io"], ["rolebindings"], [], ["create", "list"]),
      ([""], ["secrets"], [s.name], ["get", "update"]),
      (["", "image.openshift.io"], ["imagestreams/layers"], [], ["get"])] }

/-- The role binding created by `setupRBAC`. -/
def bindingObj (s : MultiStageTestStep) (js : JobSpec) : Obj :=
  { kind := "RoleBinding", ns := js.Namespace, name := s.name,
    labels := [(MultiStageTestLabel, s.name)],
    payload := .roleBinding s.name [s.name] }

/-- The `check` pattern of `setupRBAC`: a creation succeeds when the
client returns no error or "already exists". -/
def createIgnoreExists (c : Cluster) (o : Obj) : Except KErr Cluster :=
  match createObj c o with
  | .ok c1 => .ok c1
  | .error .alreadyExists => .ok c
  | .error e => .error e

/-- `setupRBAC`. -/
def setupRBAC (s : MultiStageTestStep) (js : JobSpec) (c : Cluster) : Except KErr Cluster :=
  match createIgnoreExists c (saObj s js) with
  | .error e => .error e
  | .ok c1 =>
    match createIgnoreExists c1 (roleObj s js) with
    | .error e => .error e
    | .ok c2 => createIgnoreExists c2 (bindingObj s js)

/-- The access-provisioning sequence of `run`: shared-secret reset, then
credential mirroring, then RBAC setup. -/
def provision (s : MultiStageTestStep) (js : JobSpec) (c : Cluster) : Except KErr Cluster :=
  match createSecret s js c with
  | .error e => .error e
  | .ok c1 =>
    match createCredentials s js c1 with
    | .error e => .error e
    | .ok c2 => setupRBAC s js c2

/-! ## Environment resolver -/

/-- The lease part of `environment`: resolve each lease's bound variable. -/
def leaseEnvVars (o : Oracles) : List StepLease → Except String (List EnvVar)
  | [] => .ok []
  | l :: rest =>
    match o.params l.Env with
    | .error e => .error e
    | .ok val =>
      match leaseEnvVars o rest with
      | .error e => .error e
      | .ok more => .ok ({ Name := l.Env, Value := val } :: more)

/-- The profile part of `environment`: resolve each profile parameter. -/
def profileEnvVars (o : Oracles) : List String → Except String (List EnvVar)
  | [] => .ok []
  | e :: rest =>
    match o.params e with
    | .error err => .error err
    | .ok val =>
      match profileEnvVars o rest with
      | .error err => .error err
      | .ok more => .ok ({ Name := e, Value := val } :: more)

/-- `environment`: leases, then (if profiled, after checking the profile
secret exists) profile parameters and optional-operator variables. -/
def environment (s : MultiStageTestStep) (o : Oracles) (js : JobSpec) (c : Cluster) :
    Except String (List EnvVar) :=
  match leaseEnvVars o s.leases with
  | .error e => .error e
  | .ok ret =>
    if s.profile = "" then .ok ret
    else
      if hasKey c ("Secret", js.Namespace, profileSecretName s) then
        match profileEnvVars o envForProfile with
        | .error e => .error e
        | .ok pvars =>
          match o.optionalOperatorEnv with
          | .error e => .error e
          | .ok none => .ok (ret ++ pvars)
          | .ok (some ovars) => .ok (ret ++ pvars ++ ovars)
      else .error ("could not find secret " ++ profileSecretName s)

/-! ## Workload builder -/

/-- Apply a mutation to the main container `pod.Spec.Containers[0]`. -/
def updC0 (pod : Pod) (f : Container → Container) : Pod :=
  match pod.Containers with
  | [] => pod
  | c :: rest => { pod with Containers := f c :: rest }

/-- `addSecretWrapper`: stage the wrapper binary via an init container and
reroute the main command through it. -/
def addSecretWrapper (pod : Pod) : Pod :=
  let volume := "secret-wrapper"
  let dir := "/tmp/secret-wrapper"
  let bin := dir ++ "/secret-wrapper"
  let mount : VolumeMount := { Name := volume, MountPath := dir }
  let pod := { pod with Volumes := pod.Volumes ++ [({ Name := volume, VolumeSource := .emptyDir } : Volume)] }
  let wrapperInit : Container := {
      Name := "cp-secret-wrapper"
      Image := apiCIRegistry ++ "/ci/secret-wrapper:latest"
      Command := ["cp"]
      Args := ["/bin/secret-wrapper", bin]
      Env := []
      VolumeMounts := [mount]
      Resources := [] }
  let pod := { pod with InitContainers := pod.InitContainers ++ [wrapperInit] }
  updC0 pod (fun c => { c with
      Args := c.Command ++ c.Args
      Command := [bin]
      VolumeMounts := c.VolumeMounts ++ [mount] })

/-- `generateParams`: declared default, overridden by the test-level
environment map. -/
def generateParams (s : MultiStageTestStep) (env : List StepParameter) : List EnvVar :=
  env.map (fun p =>
    let value := match p.Default with
      | some d => d
      | none => ""
    let value := match s.env.lookup p.Name with
      | some v => v
      | none => value
    { Name := p.Name, Value := value })

/-- `addSecret`: mount the shared secret at the fixed path and export it. -/
def addSecret (secret : String) (pod : Pod) : Pod :=
  let pod := { pod with Volumes := pod.Volumes ++ [{ Name := secret, VolumeSource := .secret secret }] }
  updC0 pod (fun c => { c with
      VolumeMounts := c.VolumeMounts ++ [{ Name := secret, MountPath := SecretMountPath }]
      Env := c.Env ++ [{ Name := SecretMountEnv, Value := SecretMountPath }] })

/-- `addCredentials`: one secret-backed volume per declared credential,
mounted at its declared path. -/
def addCredentials (credentials : List CredentialReference) (pod : Pod) : Pod :=
  credentials.foldl (fun pod credential =>
    let name := credentialName credential.Namespace credential.Name
    let pod := { pod with Volumes := pod.Volumes ++ [{ Name := name, VolumeSource := .secret name }] }
    updC0 pod (fun c => { c with
      VolumeMounts := c.VolumeMounts ++ [{ Name := name, MountPath := credential.MountPath }] })) pod

/-- `addProfile`: mount the profile secret, export cluster type and path. -/
def addProfile (o : Oracles) (name : String) (profile : String) (pod : Pod) : Pod :=
  let volumeName := "cluster-profile"
  let pod := { pod with Volumes := pod.Volumes ++ [{ Name := volumeName, VolumeSource := .secret name }] }
  updC0 pod (fun c => { c with
      VolumeMounts := c.VolumeMounts ++ [{ Name := volumeName, MountPath := ClusterProfileMountPath }]
      Env := c.Env ++ [
        { Name := "CLUSTER_TYPE", Value := o.clusterType profile },
        { Name := ClusterProfileMountEnv, Value := ClusterProfileMountPath }] })

/-- `addCliInjector`: copy the CLI from the release-stream image into a
shared empty volume, mount it, export its path, and splice a PATH export
into every arg that starts with the command preamble. -/
def addCliInjector (o : Oracles) (release : String) (pod : Pod) : Pod :=
  let volumeName := "cli"
  let pod := { pod with Volumes := pod.Volumes ++ [({ Name := volumeName, VolumeSource := .emptyDir } : Volume)] }
  let cliInit : Container := {
      Name := "inject-cli"
      Image := o.releaseStreamFor release ++ ":cli"
      Command := ["/bin/cp"]
      Args := ["/usr/bin/oc", CliMountPath]
      Env := []
      VolumeMounts := [{ Name := volumeName, MountPath := CliMountPath }]
      Resources := [] }
  let pod := { pod with InitContainers := pod.InitContainers ++ [cliInit] }
  updC0 pod (fun c => { c with
      Args := c.Args.map (fun arg =>
        if strStartsWith commandPreamble arg then
          commandPreamble ++ pathExportLine ++ "\n" ++ strTrimLeading commandPreamble arg
        else arg)
      VolumeMounts := c.VolumeMounts ++ [{ Name := volumeName, MountPath := CliMountPath }]
      Env := c.Env ++ [{ Name := CliEnv, Value := CliMountPath }] })

/-- `envForDependencies`: resolve each declared dependency to a pull
digest; failures are collected per dependency. -/
def envForDependencies (o : Oracles) (step : LiteralTestStep) : List EnvVar × List String :=
  step.Dependencies.foldl (fun (acc : List EnvVar × List String) dependency =>
    let parts := o.dependencyParts dependency
    match o.imageDigestFor parts.1 parts.2 with
    | .error _ =>
      (acc.1, acc.2 ++ ["could not determine image pull spec for image " ++
        dependency.Name ++ " on step " ++ step.As])
    | .ok ref => (acc.1 ++ [{ Name := dependency.Env, Value := ref }], acc.2)) ([], [])

/-- Outcome of the `generatePods` loop body for one step. -/
inductive StepOutcome where
  | skipped
  | failed (errs : List String)
  | built (pod : Pod)
deriving DecidableEq, Repr

/-- The image resolution of the `generatePods` loop body: internal
pipeline tag, else the dependency mechanism. -/
def stepImage (o : Oracles) (step : LiteralTestStep) : String :=
  match step.FromImageTag with
  | some link => pipelineImageStream ++ ":" ++ link
  | none =>
    let parts := o.dependencyParts { Name := step.From, Env := "" }
    parts.1 ++ ":" ++ parts.2

/-- The base-pod adjustments of the `generatePods` loop body up to the
shared/declared environment appends: label and annotation rewrites,
deadlines, service account, home volume and mount, the secret wrapper
(unless the shared dir is read-only), and the identity + shared + declared
parameter environment. -/
def podAfterBase (s : MultiStageTestStep) (js : JobSpec) (step : LiteralTestStep)
    (env : List EnvVar) (pod : Pod) : Pod :=
  let pod := { pod with
    Labels := ((pod.Labels.filter (fun kv : String × String => !(kv.1 == prowJobIdLabel))).filter
        (fun kv : String × String => !(kv.1 == MultiStageTestLabel))) ++ [(MultiStageTestLabel, s.name)]
    Annotations := (pod.Annotations.filter
        (fun kv : String × String => !(kv.1 == annotationSaveContainerLogs))) ++ [(annotationSaveContainerLogs, "true")]
    ActiveDeadlineSeconds := step.ActiveDeadlineSeconds
    ServiceAccountName := s.name
    TerminationGracePeriodSeconds := step.TerminationGracePeriodSeconds
    Volumes := pod.Volumes ++ [({ Name := homeVolumeName, VolumeSource := .emptyDir } : Volume)] }
  let pod := { pod with Containers := pod.Containers.map (fun c : Container =>
    if c.Name == testContainerName then
      { c with VolumeMounts := c.VolumeMounts ++ [{ Name := homeVolumeName, MountPath := "/alabama" }] }
    else c) }
  let pod := if !step.ReadonlySharedDir then addSecretWrapper pod else pod
  updC0 pod (fun c => { c with Env := c.Env ++ [
    { Name := "NAMESPACE", Value := js.Namespace },
    { Name := "JOB_NAME_SAFE", Value := s.name.replace "_" "-" },
    { Name := "JOB_NAME_HASH", Value := js.JobNameHash }] ++ env ++ generateParams s step.Environment })

/-- The tail of the `generatePods` loop body after dependency resolution
succeeded: dependency env, owner reference, profile mount and variables,
CLI injector, shared secret mount, and credential mounts. -/
def podFinalize (s : MultiStageTestStep) (o : Oracles) (js : JobSpec)
    (step : LiteralTestStep) (depEnv : List EnvVar) (pod : Pod) : Pod :=
  let pod := updC0 pod (fun c => { c with Env := c.Env ++ depEnv })
  let pod := match js.Owner with
    | some owner => { pod with OwnerReferences := pod.OwnerReferences ++ [owner] }
    | none => pod
  let pod := if s.profile ≠ "" then
      let pod := addProfile o (profileSecretName s) s.profile pod
      updC0 pod (fun c => { c with Env := c.Env ++ [
        { Name := "KUBECONFIG", Value := SecretMountPath ++ "/kubeconfig" },
        { Name := "KUBEADMIN_PASSWORD_FILE", Value := SecretMountPath ++ "/kubeadmin-password" }] })
    else pod
  let pod := if step.Cli ≠ "" then addCliInjector o step.Cli pod else pod
  let pod := addSecret s.name pod
  addCredentials step.Credentials pod

/-- The loop body of `generatePods` for one declared step: skip check,
image resolution, resource parsing, base pod generation, and the
adjustment pipeline. -/
def buildStepPod (s : MultiStageTestStep) (o : Oracles) (js : JobSpec)
    (step : LiteralTestStep) (env : List EnvVar) (hasPrevErrs : Bool) : StepOutcome :=
  if s.allowSkipOnSuccess.getD false && step.OptionalOnSuccess.getD false && !hasPrevErrs then
    .skipped
  else
    match o.resourcesFor step.Resources with
    | .error e => .failed [e]
    | .ok resources =>
      match generateBasePod o js (s.name ++ "-" ++ step.As) testContainerName
          ["/bin/bash", "-c", commandPreamble ++ step.Commands] (stepImage o step)
          resources step.ArtifactDir with
      | .error e => .failed [e]
      | .ok pod =>
        let pod := podAfterBase s js step env pod
        let depRes := envForDependencies o step
        if !depRes.2.isEmpty then .failed depRes.2
        else .built (podFinalize s o js step depRes.1 pod)

/-- The pods a step contributes to the batch (empty on skip or failure). -/
def stepPods (s : MultiStageTestStep) (o : Oracles) (js : JobSpec)
    (env : List EnvVar) (hasPrevErrs : Bool) (step : LiteralTestStep) : List Pod :=
  match buildStepPod s o js step env hasPrevErrs with
  | .built pod => [pod]
  | _ => []

/-- The per-step errors a step contributes to the batch. -/
def stepErrs (s : MultiStageTestStep) (o : Oracles) (js : JobSpec)
    (env : List EnvVar) (hasPrevErrs : Bool) (step : LiteralTestStep) : List String :=
  match buildStepPod s o js step env hasPrevErrs with
  | .failed errs => errs
  | _ => []

/-- `generatePods`: the successfully built workloads in declaration order
plus the aggregate of per-step errors. -/
def generatePods (s : MultiStageTestStep) (o : Oracles) (js : JobSpec)
    (steps : List LiteralTestStep) (env : List EnvVar) (hasPrevErrs : Bool) :
    List Pod × List String :=
  (steps.flatMap (stepPods s o js env hasPrevErrs),
   steps.flatMap (stepErrs s o js env hasPrevErrs))

/-! ## Phase runner -/

/-- Observable actions of a phase: submitting a workload, and the bulk
cleanup delete (namespace, label value, and the done-bit of the context
it uses). -/
inductive Event where
  | podRun (name : String)
  | deleteAllOf (ns : String) (labelValue : String) (ctxDone : Bool)
deriving DecidableEq, Repr

/-- Errors a phase accumulates. -/
inductive RunError where
  | podFailed (pod : String) (msg : String)
  | deleteFailed (e : KErr)
  | cancelled
deriving DecidableEq, Repr

/-- Modelled from the spec: `cleanupCtx` (defined outside this file in the
repo), the detached, non-cancelled context used for cleanup. -/
def cleanupCtxDone : Bool := false

/-- `runPods`: execute workloads strictly in sequence; record a failure
and, when short-circuiting, stop before later workloads. -/
def runPods (o : Oracles) (pods : List Pod) (shortCircuit : Bool) :
    List Event × List RunError :=
  match pods with
  | [] => ([], [])
  | pod :: rest =>
    match o.podResult pod.Name with
    | none =>
      let r := runPods o rest shortCircuit
      (Event.podRun pod.Name :: r.1, r.2)
    | some e =>
      if shortCircuit then ([Event.podRun pod.Name], [RunError.podFailed pod.Name e])
      else
        let r := runPods o rest shortCircuit
        (Event.podRun pod.Name :: r.1, RunError.podFailed pod.Name e :: r.2)

/-- Result of one `runSteps` call: either the aggregated build error
(returned before anything runs), or the aggregated execution errors. -/
inductive StepsResult where
  | buildFailed (errs : List String)
  | ran (errs : List RunError)
deriving DecidableEq, Repr

/-- Whether the Go `error` returned by `runSteps` is non-nil
(`utilerrors.NewAggregate` returns nil exactly on an empty list). -/
def StepsResult.isFailed : StepsResult → Bool
  | .buildFailed errs => !errs.isEmpty
  | .ran errs => !errs.isEmpty

/-- `runSteps`: build the batch (abort on build errors), run the pods,
then check cancellation and perform labelled bulk cleanup with the
detached context. -/
def runSteps (s : MultiStageTestStep) (o : Oracles) (js : JobSpec) (ctxDone : Bool)
    (steps : List LiteralTestStep) (env : List EnvVar)
    (shortCircuit hasPrevErrs : Bool) : List Event × StepsResult :=
  let gen := generatePods s o js steps env hasPrevErrs
  if gen.2.isEmpty then
    let r := runPods o gen.1 shortCircuit
    if ctxDone then
      let derrs := match o.deleteAllOfResult with
        | none => []
        | some KErr.notFound => []
        | some e => [RunError.deleteFailed e]
      (r.1 ++ [Event.deleteAllOf js.Namespace s.name cleanupCtxDone],
       .ran (r.2 ++ derrs ++ [RunError.cancelled]))
    else (r.1, .ran r.2)
  else ([], .buildFailed gen.2)

/-- The three phases. -/
inductive Phase where
  | pre
  | test
  | post
deriving DecidableEq, Repr

/-- A record of one `runSteps` invocation made by `run`: the arguments it
received and the result it produced. -/
structure PhaseCall where
  phase : Phase
  ctxDone : Bool
  shortCircuit : Bool
  hasPrevErrs : Bool
  events : List Event
  result : StepsResult
deriving DecidableEq, Repr

/-- Make the record for one phase invocation. -/
def mkPhaseCall (s : MultiStageTestStep) (o : Oracles) (js : JobSpec) (phase : Phase)
    (ctxDone : Bool) (steps : List LiteralTestStep) (env : List EnvVar)
    (shortCircuit hasPrevErrs : Bool) : PhaseCall :=
  let r := runSteps s o js ctxDone steps env shortCircuit hasPrevErrs
  { phase := phase, ctxDone := ctxDone, shortCircuit := shortCircuit,
    hasPrevErrs := hasPrevErrs, events := r.1, result := r.2 }

/-- The phase sequencing of `run`: Pre with the caller context; Test only
if Pre succeeded; Post always, with a fresh background context and the
accumulated-error flag.  Returns the calls made and the phases whose
errors were accumulated, in order. -/
def runPhases (s : MultiStageTestStep) (o : Oracles) (js : JobSpec)
    (ctxDone : Bool) (env : List EnvVar) : List PhaseCall × List Phase :=
  let preCall := mkPhaseCall s o js .pre ctxDone s.pre env true false
  if preCall.result.isFailed then
    let errs := [Phase.pre]
    let postCall := mkPhaseCall s o js .post false s.post env false (errs.length != 0)
    ([preCall, postCall], if postCall.result.isFailed then errs ++ [Phase.post] else errs)
  else
    let errs : List Phase := []
    let testCall := mkPhaseCall s o js .test ctxDone s.test env true (errs.length != 0)
    let errs := if testCall.result.isFailed then errs ++ [Phase.test] else errs
    let postCall := mkPhaseCall s o js .post false s.post env false (errs.length != 0)
    ([preCall, testCall, postCall],
     if postCall.result.isFailed then errs ++ [Phase.post] else errs)

/-- `run`: resolve the environment, provision access, then run the
phases. -/
def MultiStageTestStep.run (s : MultiStageTestStep) (o : Oracles) (js : JobSpec)
    (c : Cluster) (ctxDone : Bool) : Except String (List PhaseCall × List Phase) :=
  match environment s o js c with
  | .error e => .error e
  | .ok env =>
    match createSecret s js c with
    | .error _ => .error "failed to create secret"
    | .ok c1 =>
      match createCredentials s js c1 with
      | .error _ => .error "failed to create credentials"
      | .ok c2 =>
        match setupRBAC s js c2 with
        | .error _ => .error "failed to create RBAC objects"
        | .ok _ => .ok (runPhases s o js ctxDone env)

/-! ## Dependency/link resolver (`Requires`) -/

/-- The prerequisite links a test can declare. -/
inductive StepLink where
  | internalImage (tag : String)
  | forImage (imageStream : String) (name : String)
  | releaseImages (release : String)
  | forEnv (env : String)
deriving DecidableEq, Repr

/-- Modelled from the spec: `utils.LinkForEnv` (defined outside this file
in the repo) yields a parameter link for each profile-related parameter. -/
def linkForEnv (env : String) : Option StepLink := some (.forEnv env)

/-- Set-insertion into the deduplicated internal-link collection
(a Go `map` used as a set). -/
def insertDedup (l : List String) (x : String) : List String :=
  if x ∈ l then l else l ++ [x]

/-- One step of the `Requires` loop: classify the source image, collect
the `FromImageTag` internal link, dependency links and the CLI link. -/
def requiresAcc (o : Oracles) (acc : List StepLink × List String × Bool)
    (step : LiteralTestStep) : List StepLink × List String × Bool :=
  let ret := acc.1
  let internalLinks := acc.2.1
  let needsReleaseImage := acc.2.2
  let isInternal := o.isPipelineImage step.From || o.buildsImage step.From
  let internalLinks := if isInternal then insertDedup internalLinks step.From else internalLinks
  let needsReleaseImage := if isInternal then needsReleaseImage else true
  let internalLinks := match step.FromImageTag with
    | some link => insertDedup internalLinks link
    | none => internalLinks
  let ret := ret ++ step.Dependencies.map (fun dependency =>
    let parts := o.dependencyParts dependency
    StepLink.forImage parts.1 parts.2)
  let ret := if step.Cli ≠ "" then
      let parts := o.dependencyParts { Name := o.releaseStreamFor step.Cli ++ ":cli", Env := "" }
      ret ++ [StepLink.forImage parts.1 parts.2]
    else ret
  (ret, internalLinks, needsReleaseImage)

/-- The loop of `Requires` over all declared steps. -/
def requiresLoop (o : Oracles) (steps : List LiteralTestStep)
    (acc : List StepLink × List String × Bool) : List StepLink × List String × Bool :=
  match steps with
  | [] => acc
  | step :: rest => requiresLoop o rest (requiresAcc o acc step)

/-- `Requires`: dependency and CLI links, internal image links, profile
parameter links, and the plain release-images link exactly when a release
image is needed and no payload need supersedes it. -/
def MultiStageTestStep.Requires (s : MultiStageTestStep) (o : Oracles) : List StepLink :=
  let acc := requiresLoop o ((s.pre ++ s.test) ++ s.post) ([], [], false)
  let needsReleaseImage := acc.2.2
  let ret := acc.1 ++ acc.2.1.map StepLink.internalImage
  if s.profile ≠ "" then
    ret ++ envForProfile.filterMap linkForEnv
  else
    if needsReleaseImage then ret ++ [StepLink.releaseImages latestReleaseName]
    else ret

/-- The store state after a shared-secret reset: every object under the
shared-secret identity removed, the fresh empty shared secret appended. -/
def resetSecretState (s : MultiStageTestStep) (js : JobSpec) (c : Cluster) : Cluster :=
  c.filter (fun o => !(o.key == (sharedSecret s js).key)) ++ [sharedSecret s js]

/-! ## Concrete fixtures (used by witnesses and counterexamples) -/

/-- A concrete instantiation of the external contracts. -/
def oW : Oracles := {
  params := fun p => .ok ("resolved-" ++ p)
  isPipelineImage := fun f => f == "src"
  buildsImage := fun _ => false
  dependencyParts := fun d => ("stable", d.Name)
  releaseStreamFor := fun r => "release-" ++ r
  clusterType := fun p => "type-" ++ p
  resourcesFor := fun r => if r == "bad" then .error "invalid resources" else .ok [("cpu", r)]
  basePodErr := fun _ => none
  imageDigestFor := fun _ n => if n == "baddep" then .error "no digest" else .ok ("sha256:" ++ n)
  optionalOperatorEnv := .ok none
  podResult := fun n => if n == "e2e-flaky" then some "boom" else none
  deleteAllOfResult := none }

/-- A concrete job spec. -/
def jsW : JobSpec := { Namespace := "ci-op-x", JobNameHash := "h1", Owner := none }

/-- A plain step that builds and runs successfully. -/
def stepSetup : LiteralTestStep := {
  As := "setup", From := "src", FromImageTag := some "src", Cli := ""
  Commands := "make setup", Resources := "okres", Environment := [], Credentials := []
  Dependencies := [], ArtifactDir := "", ActiveDeadlineSeconds := none
  TerminationGracePeriodSeconds := none, ReadonlySharedDir := false, OptionalOnSuccess := none }

/-- A step whose pod execution fails under `oW`. -/
def stepFlaky : LiteralTestStep := { stepSetup with As := "flaky" }

/-- A step whose resource request fails to parse under `oW`. -/
def stepBadRes : LiteralTestStep := { stepSetup with As := "badres", Resources := "bad" }

/-- A step whose declared dependency fails to resolve under `oW`. -/
def stepBadDep : LiteralTestStep := { stepSetup with
  As := "baddep"
  Dependencies := [{ Name := "baddep", Env := "DEP_IMG" }] }

/-- A step that names a CLI release stream. -/
def stepCli : LiteralTestStep := { stepSetup with As := "cli-step", Cli := "4.10" }

/-- A step carrying a credential reference. -/
def stepCred : LiteralTestStep := { stepSetup with
  As := "cred-step"
  Credentials := [{ Namespace := "donor", Name := "cred", MountPath := "/creds" }] }

/-- A test with one plain step per phase. -/
def sW : MultiStageTestStep := {
  name := "e2e", profile := "", env := [], pre := [stepSetup]
  test := [stepFlaky], post := [{ stepSetup with As := "teardown" }]
  allowSkipOnSuccess := none, leases := [] }

/-- A test whose declared steps carry a credential. -/
def sCred : MultiStageTestStep := { sW with test := [stepCred] }

/-- A test with a cluster-access profile. -/
def sProf : MultiStageTestStep := { sW with profile := "aws" }

/-- The donor-namespace secret backing `stepCred`. -/
def credSourceObj : Obj := {
  kind := "Secret", ns := "donor", name := "cred", labels := []
  payload := .secret "Opaque" [("user", "u"), ("pass", "p")] }

/-- A cluster that already holds the donor secret. -/
def cW : Cluster := [credSourceObj]

/-- Extract the state of a successful store operation (fixtures only). -/
def extractCluster : Except KErr Cluster → Cluster
  | .ok c => c
  | .error _ => []

/-- Extract the result of a successful `run` (fixtures only). -/
def extractRun : Except String (List PhaseCall × List Phase) → List PhaseCall × List Phase
  | .ok r => r
  | .error _ => ([], [])

/-- Extract the pod of a `built` outcome (fixtures only). -/
def extractBuilt : StepOutcome → Pod
  | .built pod => pod
  | _ => {
      Name := "", Namespace := "", Labels := [], Annotations := [], OwnerReferences := []
      ActiveDeadlineSeconds := none, ServiceAccountName := ""
      TerminationGracePeriodSeconds := none, Volumes := [], InitContainers := [], Containers := [] }

/-! ## Theorems -/

/-- Splitting a list at a separator absent from both left parts is
injective. -/
theorem list_sep_inj {c : Char} :
    ∀ (l1 l2 r1 r2 : List Char), c ∉ l1 → c ∉ l2 →
      l1 ++ c :: r1 = l2 ++ c :: r2 → l1 = l2 ∧ r1 = r2 := by
  intro l1
  induction l1 with
  | nil =>
    intro l2 r1 r2 h1 h2 heq
    cases l2 with
    | nil =>
      refine ⟨rfl, ?_⟩
      injection heq
    | cons b bs =>
      simp only [List.nil_append, List.cons_append] at heq
      injection heq with hcb htail
      subst hcb
      exact absurd (List.mem_cons_self _ _) h2
  | cons a as ih =>
    intro l2 r1 r2 h1 h2 heq
    cases l2 with
    | nil =>
      simp only [List.cons_append, List.nil_append] at heq
      injection heq with hac htail
      subst hac
      exact absurd (List.mem_cons_self _ _) h1
    | cons b bs =>
      simp only [List.cons_append] at heq
      injection heq with hab htail
      subst hab
      have h1' : c ∉ as := fun hm => h1 (List.mem_cons_of_mem _ hm)
      have h2' : c ∉ bs := fun hm => h2 (List.mem_cons_of_mem _ hm)
      obtain ⟨he, hr⟩ := ih bs r1 r2 h1' h2' htail
      exact ⟨by rw [he], hr⟩

/-- Claim C2, counterexample: the derived mirrored-credential name is NOT
injective over all distinct `(namespace, name)` pairs: the distinct pairs
`("ns-a", "name")` and `("ns", "a-name")` collide on `"ns-a-name"`,
exactly the second-level collision the source comment acknowledges. -/
theorem credentialName_collision :
    (("ns-a", "name") : String × String) ≠ (("ns", "a-name") : String × String) ∧
    credentialName "ns-a" "name" = credentialName "ns" "a-name" := by
  exact ⟨by decide, rfl⟩

/-- Claim C2 (amended): deriving the mirrored credential name is
deterministic (it is a pure function of the pair), and it is injective
over distinct pairs whose namespaces contain no hyphen: under that
restriction equal derived names force equal pairs. -/
theorem credentialName_injective_amended (ns1 n1 ns2 n2 : String)
    (h1 : ('-' : Char) ∉ ns1.data) (h2 : ('-' : Char) ∉ ns2.data)
    (heq : credentialName ns1 n1 = credentialName ns2 n2) :
    ns1 = ns2 ∧ n1 = n2 := by
  have hd : ns1.data ++ '-' :: n1.data = ns2.data ++ '-' :: n2.data := by
    have hc := congrArg String.data heq
    simpa [credentialName, String.data_append] using hc
  obtain ⟨ha, hb⟩ := list_sep_inj ns1.data ns2.data n1.data n2.data h1 h2 hd
  exact ⟨String.ext ha, String.ext hb⟩

/-- Witness for the amended C2 theorem at concrete inputs. -/
theorem credentialName_injective_amended_witness :
    ("alpha" : String) = "alpha" ∧ ("beta" : String) = "beta" :=
  credentialName_injective_amended "alpha" "beta" "alpha" "beta"
    (by decide) (by decide) rfl

/-- An optional Go `*bool` dereferences to true exactly when it is a
non-nil pointer to true. -/
theorem optTrue_iff (x : Option Bool) : x.getD false = true ↔ x = some true := by
  cases x with
  | none => simp
  | some b => cases b <;> simp

/-- The loop body of `generatePods` silently skips a step exactly when
the test-level flag and the step-level flag are both present and true and
no earlier phase failed. -/
theorem buildStepPod_skipped_iff (s : MultiStageTestStep) (o : Oracles) (js : JobSpec)
    (step : LiteralTestStep) (env : List EnvVar) (hasPrevErrs : Bool) :
    buildStepPod s o js step env hasPrevErrs = .skipped ↔
      (s.allowSkipOnSuccess = some true ∧ step.OptionalOnSuccess = some true ∧
        hasPrevErrs = false) := by
  unfold buildStepPod
  split
  next h =>
    simp only [Bool.and_eq_true, Bool.not_eq_true'] at h
    obtain ⟨⟨ha, hb⟩, hp⟩ := h
    simp [(optTrue_iff _).mp ha, (optTrue_iff _).mp hb, hp]
  next h =>
    simp only [Bool.and_eq_true, Bool.not_eq_true'] at h
    constructor
    · intro hcontra
      exfalso
      split at hcontra
      · exact absurd hcontra (by simp)
      · split at hcontra
        · exact absurd hcontra (by simp)
        · simp only [] at hcontra
          split at hcontra
          · exact absurd hcontra (by simp)
          · exact absurd hcontra (by simp)
    · rintro ⟨ha, hb, hp⟩
      exact absurd ⟨⟨by simp [ha], by simp [hb]⟩, by simp [hp]⟩ h

/-- The loop body of `generatePods` never fails with an empty error
list. -/
theorem buildStepPod_failed_ne_nil (s : MultiStageTestStep) (o : Oracles) (js : JobSpec)
    (step : LiteralTestStep) (env : List EnvVar) (hasPrevErrs : Bool) (errs : List String)
    (h : buildStepPod s o js step env hasPrevErrs = .failed errs) : errs ≠ [] := by
  unfold buildStepPod at h
  split at h
  · exact absurd h (by simp)
  · split at h
    · injection h with he
      subst he
      simp
    · split at h
      · injection h with he
        subst he
        simp
      · simp only [] at h
        split at h
        next hne =>
          injection h with he
          subst he
          simpa using hne
        · exact absurd h (by simp)

/-- A step contributes neither a workload nor an error to the batch
exactly when the skip predicate holds. -/
theorem stepBatch_silent_iff (s : MultiStageTestStep) (o : Oracles) (js : JobSpec)
    (env : List EnvVar) (hasPrevErrs : Bool) (step : LiteralTestStep) :
    (stepPods s o js env hasPrevErrs step = [] ∧ stepErrs s o js env hasPrevErrs step = []) ↔
      (s.allowSkipOnSuccess = some true ∧ step.OptionalOnSuccess = some true ∧
        hasPrevErrs = false) := by
  rw [← buildStepPod_skipped_iff s o js step env hasPrevErrs]
  unfold stepPods stepErrs
  cases hb : buildStepPod s o js step env hasPrevErrs with
  | skipped => simp
  | failed errs =>
    have hne := buildStepPod_failed_ne_nil s o js step env hasPrevErrs errs hb
    simp [hne]
  | built pod => simp

/-- Claim C1 (amended): the produced workload batch is the concatenation
of the per-step contributions in declaration order, and a declared step
is omitted with no error recorded if and only if the test-level
allow-skip-on-success flag is enabled AND the step's optional-on-success
flag is enabled AND no earlier phase produced an error; otherwise either
a workload for the step is included or a per-step build error is
recorded. -/
theorem skip_policy_amended (s : MultiStageTestStep) (o : Oracles) (js : JobSpec)
    (steps : List LiteralTestStep) (env : List EnvVar) (hasPrevErrs : Bool) :
    generatePods s o js steps env hasPrevErrs =
      (steps.flatMap (stepPods s o js env hasPrevErrs),
       steps.flatMap (stepErrs s o js env hasPrevErrs)) ∧
    ∀ step : LiteralTestStep,
      ((stepPods s o js env hasPrevErrs step = [] ∧
        stepErrs s o js env hasPrevErrs step = []) ↔
        (s.allowSkipOnSuccess = some true ∧ step.OptionalOnSuccess = some true ∧
          hasPrevErrs = false)) ∧
      (¬ (s.allowSkipOnSuccess = some true ∧ step.OptionalOnSuccess = some true ∧
          hasPrevErrs = false) →
        stepPods s o js env hasPrevErrs step ≠ [] ∨
        stepErrs s o js env hasPrevErrs step ≠ []) := by
  refine ⟨rfl, fun step => ⟨stepBatch_silent_iff s o js env hasPrevErrs step, fun hc => ?_⟩⟩
  by_contra hcon
  push_neg at hcon
  exact hc ((stepBatch_silent_iff s o js env hasPrevErrs step).mp ⟨hcon.1, hcon.2⟩)

/-- Claim C1, counterexample to the claim as stated: for a concrete step
whose resource request fails to parse, the skip predicate is false and
yet no workload for the step is included in the batch (a build error is
recorded instead), refuting "otherwise a workload for the step is
included". -/
theorem skip_policy_counterexample :
    ¬ (sW.allowSkipOnSuccess = some true ∧ stepBadRes.OptionalOnSuccess = some true ∧
        (false : Bool) = false) ∧
    generatePods sW oW jsW [stepBadRes] [] false = ([], ["invalid resources"]) := by
  exact ⟨by decide, rfl⟩

/-- Witness for the amended C1 theorem: with both flags enabled and no
previous error, a concrete optional step is silently skipped. -/
theorem skip_policy_amended_witness :
    (stepPods { sW with allowSkipOnSuccess := some true } oW jsW [] false
      { stepSetup with OptionalOnSuccess := some true } = [] ∧
     stepErrs { sW with allowSkipOnSuccess := some true } oW jsW [] false
      { stepSetup with OptionalOnSuccess := some true } = []) :=
  (((skip_policy_amended { sW with allowSkipOnSuccess := some true } oW jsW
      [{ stepSetup with OptionalOnSuccess := some true }] [] false).2
    { stepSetup with OptionalOnSuccess := some true }).1).mpr ⟨rfl, rfl, rfl⟩

/-- Claim C10 (amended): when either flag is absent the step is never
silently skipped — regardless of earlier-phase failures it contributes a
workload or a recorded build error — and silent skipping requires both
flags to be present and true. -/
theorem absent_flags_no_skip (s : MultiStageTestStep) (o : Oracles) (js : JobSpec)
    (step : LiteralTestStep) (env : List EnvVar) (hasPrevErrs : Bool)
    (h : s.allowSkipOnSuccess = none ∨ step.OptionalOnSuccess = none) :
    (stepPods s o js env hasPrevErrs step ≠ [] ∨
     stepErrs s o js env hasPrevErrs step ≠ []) ∧
    (∀ (s2 : MultiStageTestStep) (o2 : Oracles) (js2 : JobSpec) (step2 : LiteralTestStep)
        (env2 : List EnvVar) (h2 : Bool),
      buildStepPod s2 o2 js2 step2 env2 h2 = .skipped →
        s2.allowSkipOnSuccess = some true ∧ step2.OptionalOnSuccess = some true ∧
          h2 = false) := by
  constructor
  · by_contra hcon
    push_neg at hcon
    have hcond := (stepBatch_silent_iff s o js env hasPrevErrs step).mp ⟨hcon.1, hcon.2⟩
    cases h with
    | inl ha => rw [ha] at hcond; exact absurd hcond.1 (by simp)
    | inr hb => rw [hb] at hcond; exact absurd hcond.2.1 (by simp)
  · intro s2 o2 js2 step2 env2 h2 hsk
    exact (buildStepPod_skipped_iff s2 o2 js2 step2 env2 h2).mp hsk

/-- Claim C10, counterexample to the claim as stated: both flags are
absent on a concrete step whose dependency fails to resolve, and no
workload is emitted for it (an error is recorded instead), refuting "a
workload is always emitted". -/
theorem absent_flags_counterexample :
    sW.allowSkipOnSuccess = none ∧ stepBadDep.OptionalOnSuccess = none ∧
    (generatePods sW oW jsW [stepBadDep] [] false).1 = [] := by
  exact ⟨rfl, rfl, rfl⟩

/-- Without short-circuit, `runPods` submits every workload in
declaration order and aggregates every failure in order. -/
theorem runPods_false_eq (o : Oracles) (pods : List Pod) :
    runPods o pods false =
      (pods.map (fun p => Event.podRun p.Name),
       pods.filterMap (fun p => (o.podResult p.Name).map
         (fun e => RunError.podFailed p.Name e))) := by
  induction pods with
  | nil => rfl
  | cons pod rest ih =>
    cases hp : o.podResult pod.Name with
    | none => simp [runPods, hp, ih]
    | some msg => simp [runPods, hp, ih]

/-- With short-circuit, `runPods` submits the longest successful run of
workloads in declaration order, then the first failing one, records that
single failure, and starts no later workload. -/
theorem runPods_true_eq (o : Oracles) (pods : List Pod) :
    runPods o pods true =
      (match pods.dropWhile (fun p => (o.podResult p.Name).isNone) with
       | [] => (pods.map (fun p => Event.podRun p.Name), [])
       | bad :: _ =>
         ((pods.takeWhile (fun p => (o.podResult p.Name).isNone)).map
            (fun p => Event.podRun p.Name) ++ [Event.podRun bad.Name],
          match o.podResult bad.Name with
          | some e => [RunError.podFailed bad.Name e]
          | none => [])) := by
  induction pods with
  | nil => rfl
  | cons pod rest ih =>
    cases hp : o.podResult pod.Name with
    | none =>
      simp only [runPods, hp, ih, List.dropWhile, List.takeWhile, Option.isNone_some,
        Option.isNone_none]
      cases hd : rest.dropWhile (fun p => (o.podResult p.Name).isNone) with
      | nil => simp [hd]
      | cons bad more => simp [hd]
    | some msg =>
      simp [runPods, hp, List.dropWhile, List.takeWhile]

/-- Every event `runPods` emits is a workload submission. -/
theorem runPods_events_podRun (o : Oracles) (sc : Bool) (pods : List Pod) :
    ∀ e ∈ (runPods o pods sc).1, ∃ n, e = Event.podRun n := by
  induction pods with
  | nil => intro e he; simp [runPods] at he
  | cons pod rest ih =>
    intro e he
    cases hp : o.podResult pod.Name with
    | none =>
      simp only [runPods, hp] at he
      rcases List.mem_cons.mp he with h1 | h2
      · exact ⟨pod.Name, h1⟩
      · exact ih e h2
    | some msg =>
      by_cases hsc : sc = true
      · subst hsc
        simp only [runPods, hp, if_pos rfl] at he
        simp at he
        exact ⟨pod.Name, he⟩
      · have hsc' : sc = false := by
          cases sc
          · rfl
          · exact absurd rfl hsc
        subst hsc'
        simp only [runPods, hp, Bool.false_eq_true, if_false] at he
        rcases List.mem_cons.mp he with h1 | h2
        · exact ⟨pod.Name, h1⟩
        · exact ih e h2

/-- Every error `runPods` accumulates is a per-workload failure; in
particular no "cancelled" error originates there. -/
theorem runPods_errors_podFailed (o : Oracles) (sc : Bool) (pods : List Pod) :
    ∀ er ∈ (runPods o pods sc).2, ∃ n m, er = RunError.podFailed n m := by
  induction pods with
  | nil => intro er her; simp [runPods] at her
  | cons pod rest ih =>
    intro er her
    cases hp : o.podResult pod.Name with
    | none =>
      simp only [runPods, hp] at her
      exact ih er her
    | some msg =>
      by_cases hsc : sc = true
      · subst hsc
        simp only [runPods, hp, if_pos rfl] at her
        simp at her
        exact ⟨pod.Name, msg, her⟩
      · have hsc' : sc = false := by
          cases sc
          · rfl
          · exact absurd rfl hsc
        subst hsc'
        simp only [runPods, hp, Bool.false_eq_true, if_false] at her
        rcases List.mem_cons.mp her with h1 | h2
        · exact ⟨pod.Name, msg, h1⟩
        · exact ih er h2

/-- Claim C9: when building the workload batch for a phase yields any
per-step error, `runSteps` returns the aggregated build error before
submitting anything — no events are emitted, so no workload of the
phase (including successfully built ones) is executed. -/
theorem runSteps_build_error_aborts (s : MultiStageTestStep) (o : Oracles) (js : JobSpec)
    (ctxDone : Bool) (steps : List LiteralTestStep) (env : List EnvVar)
    (shortCircuit hasPrevErrs : Bool)
    (h : (generatePods s o js steps env hasPrevErrs).2 ≠ []) :
    runSteps s o js ctxDone steps env shortCircuit hasPrevErrs =
      ([], .buildFailed (generatePods s o js steps env hasPrevErrs).2) := by
  have hemp : (generatePods s o js steps env hasPrevErrs).2.isEmpty = false := by
    cases hg : (generatePods s o js steps env hasPrevErrs).2 with
    | nil => exact absurd hg h
    | cons a l => simp
  simp [runSteps, hemp]

/-- Witness for C9: a concrete batch with one unparsable-resources step
and one good step aborts the phase with the aggregated build error and
runs nothing, dropping the good step's pod too. -/
theorem runSteps_build_error_aborts_witness :
    runSteps sW oW jsW false [stepBadRes, stepSetup] [] true false =
      ([], .buildFailed (generatePods sW oW jsW [stepBadRes, stepSetup] [] false).2) :=
  runSteps_build_error_aborts sW oW jsW false [stepBadRes, stepSetup] [] true false
    (by decide)

/-- Claim C5: when the phase's workloads all built, the "cancelled" error
never originates from workload execution and no bulk delete is issued by
it; after the workload loop, exactly when the phase context is done, a
bulk delete of the test's labelled workloads is issued on the detached
non-cancelled cleanup context and a "cancelled" error is reported in
addition to the accumulated per-workload errors; when the context is not
done, no delete is issued and no "cancelled" error is added. -/
theorem runSteps_cancellation_policy (s : MultiStageTestStep) (o : Oracles) (js : JobSpec)
    (ctxDone : Bool) (steps : List LiteralTestStep) (env : List EnvVar)
    (shortCircuit hasPrevErrs : Bool)
    (h : (generatePods s o js steps env hasPrevErrs).2 = []) :
    cleanupCtxDone = false ∧
    RunError.cancelled ∉
      (runPods o (generatePods s o js steps env hasPrevErrs).1 shortCircuit).2 ∧
    (∀ ns lbl b, Event.deleteAllOf ns lbl b ∉
      (runPods o (generatePods s o js steps env hasPrevErrs).1 shortCircuit).1) ∧
    runSteps s o js ctxDone steps env shortCircuit hasPrevErrs =
      (if ctxDone then
         (runPods o (generatePods s o js steps env hasPrevErrs).1 shortCircuit).1 ++
           [Event.deleteAllOf js.Namespace s.name cleanupCtxDone]
       else (runPods o (generatePods s o js steps env hasPrevErrs).1 shortCircuit).1,
       if ctxDone then
         StepsResult.ran
           ((runPods o (generatePods s o js steps env hasPrevErrs).1 shortCircuit).2 ++
            (match o.deleteAllOfResult with
             | none => []
             | some KErr.notFound => []
             | some e => [RunError.deleteFailed e]) ++ [RunError.cancelled])
       else StepsResult.ran
         (runPods o (generatePods s o js steps env hasPrevErrs).1 shortCircuit).2) := by
  refine ⟨rfl, ?_, ?_, ?_⟩
  · intro hc
    obtain ⟨n, m, habs⟩ := runPods_errors_podFailed o shortCircuit
      (generatePods s o js steps env hasPrevErrs).1 RunError.cancelled hc
    exact RunError.noConfusion habs
  · intro ns lbl b hc
    obtain ⟨n, habs⟩ := runPods_events_podRun o shortCircuit
      (generatePods s o js steps env hasPrevErrs).1 (Event.deleteAllOf ns lbl b) hc
    exact Event.noConfusion habs
  · have hemp : (generatePods s o js steps env hasPrevErrs).2.isEmpty = true := by
      rw [h]; rfl
    cases ctxDone with
    | true => simp [runSteps, hemp]
    | false => simp [runSteps, hemp]

/-- Witness for C5 at concrete inputs: a cancelled one-step phase issues
the labelled bulk delete on the detached context and appends the
"cancelled" error. -/
theorem runSteps_cancellation_policy_witness :
    runSteps sW oW jsW true [stepSetup] [] true false =
      ((runPods oW (generatePods sW oW jsW [stepSetup] [] false).1 true).1 ++
        [Event.deleteAllOf jsW.Namespace sW.name cleanupCtxDone],
       StepsResult.ran
         ((runPods oW (generatePods sW oW jsW [stepSetup] [] false).1 true).2 ++
          [] ++ [RunError.cancelled])) := by
  have h := (runSteps_cancellation_policy sW oW jsW true [stepSetup] [] true false rfl).2.2.2
  simpa using h

/-- A successful `run` resolves the environment and returns exactly the
phase-sequencing result. -/
theorem run_ok_eq_runPhases (s : MultiStageTestStep) (o : Oracles) (js : JobSpec)
    (c : Cluster) (ctxDone : Bool) (r : List PhaseCall × List Phase)
    (h : MultiStageTestStep.run s o js c ctxDone = .ok r) :
    ∃ env, environment s o js c = .ok env ∧ r = runPhases s o js ctxDone env := by
  unfold MultiStageTestStep.run at h
  split at h
  · exact absurd h (by simp)
  next env henv =>
    split at h
    · exact absurd h (by simp)
    next c1 h1 =>
      split at h
      · exact absurd h (by simp)
      next c2 h2 =>
        split at h
        · exact absurd h (by simp)
        next c3 h3 =>
          injection h with hr
          exact ⟨env, henv, hr.symm⟩

/-- The phase recorded on a phase call is the one it was invoked for. -/
theorem mkPhaseCall_phase (s : MultiStageTestStep) (o : Oracles) (js : JobSpec)
    (ph : Phase) (ctx : Bool) (steps : List LiteralTestStep) (env : List EnvVar)
    (sc hp : Bool) : (mkPhaseCall s o js ph ctx steps env sc hp).phase = ph := rfl

/-- The context bit recorded on a phase call is the one it was given. -/
theorem mkPhaseCall_ctxDone (s : MultiStageTestStep) (o : Oracles) (js : JobSpec)
    (ph : Phase) (ctx : Bool) (steps : List LiteralTestStep) (env : List EnvVar)
    (sc hp : Bool) : (mkPhaseCall s o js ph ctx steps env sc hp).ctxDone = ctx := rfl

/-- The short-circuit flag recorded on a phase call is the one it was
given. -/
theorem mkPhaseCall_shortCircuit (s : MultiStageTestStep) (o : Oracles) (js : JobSpec)
    (ph : Phase) (ctx : Bool) (steps : List LiteralTestStep) (env : List EnvVar)
    (sc hp : Bool) : (mkPhaseCall s o js ph ctx steps env sc hp).shortCircuit = sc := rfl

/-- The earlier-failure flag recorded on a phase call is the one it was
given. -/
theorem mkPhaseCall_hasPrevErrs (s : MultiStageTestStep) (o : Oracles) (js : JobSpec)
    (ph : Phase) (ctx : Bool) (steps : List LiteralTestStep) (env : List EnvVar)
    (sc hp : Bool) : (mkPhaseCall s o js ph ctx steps env sc hp).hasPrevErrs = hp := rfl

/-- The exact sequence of phase invocations `run` makes: Pre with the
caller context; if Pre failed no Test call, else Test with the caller
context; Post always, with a non-done context, short-circuit disabled,
and the earlier-failure flag. -/
theorem runPhases_calls (s : MultiStageTestStep) (o : Oracles) (js : JobSpec)
    (ctx : Bool) (env : List EnvVar) :
    (runPhases s o js ctx env).1 =
      (if (mkPhaseCall s o js .pre ctx s.pre env true false).result.isFailed then
        [mkPhaseCall s o js .pre ctx s.pre env true false,
         mkPhaseCall s o js .post false s.post env false true]
      else
        [mkPhaseCall s o js .pre ctx s.pre env true false,
         mkPhaseCall s o js .test ctx s.test env true false,
         mkPhaseCall s o js .post false s.post env false
           ((mkPhaseCall s o js .test ctx s.test env true false).result.isFailed)]) := by
  unfold runPhases
  cases hpre : (mkPhaseCall s o js .pre ctx s.pre env true false).result.isFailed with
  | true => simp [hpre]
  | false =>
    simp only [hpre, Bool.false_eq_true, if_false]
    cases htest : (mkPhaseCall s o js .test ctx s.test env true false).result.isFailed with
    | true => simp [htest]
    | false => simp [htest]

/-- The phases whose errors `run` accumulates are exactly the phases that
ran and failed, in order. -/
theorem runPhases_errs (s : MultiStageTestStep) (o : Oracles) (js : JobSpec)
    (ctx : Bool) (env : List EnvVar) :
    (runPhases s o js ctx env).2 =
      (runPhases s o js ctx env).1.filterMap
        (fun pc => if pc.result.isFailed then some pc.phase else none) := by
  unfold runPhases
  cases hpre : (mkPhaseCall s o js .pre ctx s.pre env true false).result.isFailed with
  | true =>
    cases hpost : (mkPhaseCall s o js .post false s.post env false true).result.isFailed with
    | true => simp [hpre, hpost, mkPhaseCall_phase]
    | false => simp [hpre, hpost, mkPhaseCall_phase]
  | false =>
    cases htest : (mkPhaseCall s o js .test ctx s.test env true false).result.isFailed with
    | true =>
      cases hpost : (mkPhaseCall s o js .post false s.post env false
          true).result.isFailed with
      | true => simp [hpre, htest, hpost, mkPhaseCall_phase]
      | false => simp [hpre, htest, hpost, mkPhaseCall_phase]
    | false =>
      cases hpost : (mkPhaseCall s o js .post false s.post env false
          false).result.isFailed with
      | true => simp [hpre, htest, hpost, mkPhaseCall_phase]
      | false => simp [hpre, htest, hpost, mkPhaseCall_phase]

/-- Claim C3: on a successful `run`, if the Pre phase fails the Test
phase is not invoked at all; the Post phase is always invoked, with a
fresh non-done context (regardless of the caller's), without
short-circuit, and with a flag recording whether any earlier phase
failed; and the overall error list aggregates exactly the phases that
ran and failed, in order. -/
theorem run_phase_policy (s : MultiStageTestStep) (o : Oracles) (js : JobSpec)
    (c : Cluster) (ctxDone : Bool) (r : List PhaseCall × List Phase)
    (h : MultiStageTestStep.run s o js c ctxDone = .ok r) :
    ∃ preCall postCall : PhaseCall,
      preCall.phase = Phase.pre ∧ preCall.ctxDone = ctxDone ∧
        preCall.hasPrevErrs = false ∧
      postCall.phase = Phase.post ∧ postCall.ctxDone = false ∧
        postCall.shortCircuit = false ∧
      (if preCall.result.isFailed then
         r.1 = [preCall, postCall] ∧ postCall.hasPrevErrs = true
       else
         ∃ testCall : PhaseCall, testCall.phase = Phase.test ∧
           testCall.ctxDone = ctxDone ∧
           r.1 = [preCall, testCall, postCall] ∧
           postCall.hasPrevErrs = testCall.result.isFailed) ∧
      r.2 = r.1.filterMap (fun pc => if pc.result.isFailed then some pc.phase else none) := by
  obtain ⟨env, henv, hr⟩ := run_ok_eq_runPhases s o js c ctxDone r h
  have hcalls := runPhases_calls s o js ctxDone env
  have herrs := runPhases_errs s o js ctxDone env
  cases hpre : (mkPhaseCall s o js .pre ctxDone s.pre env true false).result.isFailed with
  | true =>
    refine ⟨mkPhaseCall s o js .pre ctxDone s.pre env true false,
           mkPhaseCall s o js .post false s.post env false true,
           rfl, rfl, rfl, rfl, rfl, rfl, ?_, ?_⟩
    · rw [if_pos hpre]
      refine ⟨?_, rfl⟩
      rw [hr, hcalls, if_pos hpre]
    · rw [hr]
      exact herrs
  | false =>
    refine ⟨mkPhaseCall s o js .pre ctxDone s.pre env true false,
           mkPhaseCall s o js .post false s.post env false
             ((mkPhaseCall s o js .test ctxDone s.test env true false).result.isFailed),
           rfl, rfl, rfl, rfl, rfl, rfl, ?_, ?_⟩
    · rw [if_neg (by simp [hpre])]
      refine ⟨mkPhaseCall s o js .test ctxDone s.test env true false, rfl, rfl, ?_, rfl⟩
      rw [hr, hcalls, if_neg (by simp [hpre])]
    · rw [hr]
      exact herrs

/-- Witness for C3 at concrete inputs (a done caller context; the Post
call still receives a non-done context). -/
theorem run_phase_policy_witness :
    ∃ preCall postCall : PhaseCall,
      preCall.phase = Phase.pre ∧ preCall.ctxDone = true ∧
        preCall.hasPrevErrs = false ∧
      postCall.phase = Phase.post ∧ postCall.ctxDone = false ∧
        postCall.shortCircuit = false ∧
      (if preCall.result.isFailed then
         (extractRun (MultiStageTestStep.run sW oW jsW [] true)).1 = [preCall, postCall] ∧
           postCall.hasPrevErrs = true
       else
         ∃ testCall : PhaseCall, testCall.phase = Phase.test ∧
           testCall.ctxDone = true ∧
           (extractRun (MultiStageTestStep.run sW oW jsW [] true)).1 =
             [preCall, testCall, postCall] ∧
           postCall.hasPrevErrs = testCall.result.isFailed) ∧
      (extractRun (MultiStageTestStep.run sW oW jsW [] true)).2 =
        (extractRun (MultiStageTestStep.run sW oW jsW [] true)).1.filterMap
          (fun pc => if pc.result.isFailed then some pc.phase else none) :=
  run_phase_policy sW oW jsW [] true (extractRun (MultiStageTestStep.run sW oW jsW [] true)) rfl

/-- Claim C4: within a phase, workloads execute strictly in declaration
order with failures recorded — with short-circuit the phase stops right
after the first failing workload, and without short-circuit every
remaining workload still runs and all failures are aggregated — and
`run` flags exactly its Pre and Test invocations as short-circuiting,
never Post. -/
theorem phase_execution_policy :
    (∀ (o : Oracles) (pods : List Pod),
      runPods o pods false =
        (pods.map (fun p => Event.podRun p.Name),
         pods.filterMap (fun p => (o.podResult p.Name).map
           (fun e => RunError.podFailed p.Name e))) ∧
      runPods o pods true =
        (match pods.dropWhile (fun p => (o.podResult p.Name).isNone) with
         | [] => (pods.map (fun p => Event.podRun p.Name), [])
         | bad :: _ =>
           ((pods.takeWhile (fun p => (o.podResult p.Name).isNone)).map
              (fun p => Event.podRun p.Name) ++ [Event.podRun bad.Name],
            match o.podResult bad.Name with
            | some e => [RunError.podFailed bad.Name e]
            | none => []))) ∧
    (∀ (s : MultiStageTestStep) (o : Oracles) (js : JobSpec) (c : Cluster) (ctxDone : Bool)
        (r : List PhaseCall × List Phase),
      MultiStageTestStep.run s o js c ctxDone = Except.ok r →
        ∀ pc ∈ r.1, (pc.shortCircuit = true ↔ pc.phase ≠ Phase.post)) := by
  refine ⟨fun o pods => ⟨runPods_false_eq o pods, runPods_true_eq o pods⟩, ?_⟩
  intro s o js c ctxDone r h pc hpc
  obtain ⟨env, _, hr⟩ := run_ok_eq_runPhases s o js c ctxDone r h
  rw [hr, runPhases_calls] at hpc
  by_cases hpre : (mkPhaseCall s o js .pre ctxDone s.pre env true false).result.isFailed = true
  · rw [if_pos hpre] at hpc
    rcases List.mem_cons.mp hpc with h1 | h2
    · subst h1; simp [mkPhaseCall]
    · rcases List.mem_cons.mp h2 with h3 | h4
      · subst h3; simp [mkPhaseCall]
      · simp at h4
  · rw [if_neg hpre] at hpc
    rcases List.mem_cons.mp hpc with h1 | h2
    · subst h1; simp [mkPhaseCall]
    · rcases List.mem_cons.mp h2 with h3 | h4
      · subst h3; simp [mkPhaseCall]
      · rcases List.mem_cons.mp h4 with h5 | h6
        · subst h5; simp [mkPhaseCall]
        · simp at h6

/-- Witness for C4 at concrete inputs: every phase call of a concrete run
satisfies the short-circuit flag policy. -/
theorem phase_execution_policy_witness :
    ∀ pc ∈ (extractRun (MultiStageTestStep.run sW oW jsW [] false)).1,
      (pc.shortCircuit = true ↔ pc.phase ≠ Phase.post) :=
  phase_execution_policy.2 sW oW jsW [] false
    (extractRun (MultiStageTestStep.run sW oW jsW [] false)) rfl

/-- One step of the `Requires` loop only appends image links for
dependencies and the CLI to the accumulated link list. -/
theorem requiresAcc_ret_mem (o : Oracles) (acc : List StepLink × List String × Bool)
    (step : LiteralTestStep) (l : StepLink) (h : l ∈ (requiresAcc o acc step).1) :
    l ∈ acc.1 ∨ ∃ st n, l = StepLink.forImage st n := by
  unfold requiresAcc at h
  simp only [] at h
  split at h
  · rcases List.mem_append.mp h with h1 | h2
    · rcases List.mem_append.mp h1 with ha | hm
      · exact Or.inl ha
      · obtain ⟨d, -, hd⟩ := List.mem_map.mp hm
        exact Or.inr ⟨_, _, hd.symm⟩
    · simp at h2
      exact Or.inr ⟨_, _, h2⟩
  · rcases List.mem_append.mp h with ha | hm
    · exact Or.inl ha
    · obtain ⟨d, -, hd⟩ := List.mem_map.mp hm
      exact Or.inr ⟨_, _, hd.symm⟩

/-- The `Requires` loop only appends image links to the accumulated link
list. -/
theorem requiresLoop_ret_mem (o : Oracles) :
    ∀ (steps : List LiteralTestStep) (acc : List StepLink × List String × Bool)
      (l : StepLink), l ∈ (requiresLoop o steps acc).1 →
      l ∈ acc.1 ∨ ∃ st n, l = StepLink.forImage st n := by
  intro steps
  induction steps with
  | nil =>
    intro acc l h
    exact Or.inl h
  | cons step rest ih =>
    intro acc l h
    simp only [requiresLoop] at h
    rcases ih (requiresAcc o acc step) l h with h1 | h2
    · exact requiresAcc_ret_mem o acc step l h1
    · exact Or.inr h2

/-- One step of the `Requires` loop marks a release-image need exactly
when the step's source image is external. -/
theorem requiresAcc_needs (o : Oracles) (acc : List StepLink × List String × Bool)
    (step : LiteralTestStep) :
    (requiresAcc o acc step).2.2 =
      (acc.2.2 || !(o.isPipelineImage step.From || o.buildsImage step.From)) := by
  unfold requiresAcc
  simp only []
  cases hInt : (o.isPipelineImage step.From || o.buildsImage step.From) with
  | true => simp [hInt]
  | false => simp [hInt]

/-- The `Requires` loop marks a release-image need exactly when some
step's source image is external. -/
theorem requiresLoop_needs (o : Oracles) :
    ∀ (steps : List LiteralTestStep) (acc : List StepLink × List String × Bool),
      (requiresLoop o steps acc).2.2 =
        (acc.2.2 || steps.any
          (fun st => !(o.isPipelineImage st.From || o.buildsImage st.From))) := by
  intro steps
  induction steps with
  | nil => intro acc; simp [requiresLoop]
  | cons step rest ih =>
    intro acc
    simp only [requiresLoop]
    rw [ih (requiresAcc o acc step), requiresAcc_needs]
    cases acc.2.2 <;> simp [Bool.or_assoc]

/-- No link produced before the final release-images check is a plain
release-images link. -/
theorem requires_base_no_release (s : MultiStageTestStep) (o : Oracles) (l : StepLink)
    (h : l ∈ (requiresLoop o ((s.pre ++ s.test) ++ s.post) ([], [], false)).1 ++
      (requiresLoop o ((s.pre ++ s.test) ++ s.post) ([], [], false)).2.1.map
        StepLink.internalImage) :
    ∀ rel, l ≠ StepLink.releaseImages rel := by
  intro rel
  rcases List.mem_append.mp h with h1 | h2
  · rcases requiresLoop_ret_mem o ((s.pre ++ s.test) ++ s.post) ([], [], false) l h1 with
      ha | ⟨st, n, hf⟩
    · simp at ha
    · subst hf
      simp
  · obtain ⟨t, -, ht⟩ := List.mem_map.mp h2
    subst ht
    simp

/-- Claim C7: if a cluster-access profile is set, `Requires` contains a
link for every profile-related parameter and never the plain
release-images link, even when some step's source image is external; the
plain release-images link is present exactly when some step's source
image is external (neither a pipeline image nor a built image) and no
profile is set. -/
theorem requires_release_image_policy (s : MultiStageTestStep) (o : Oracles) :
    (s.profile ≠ "" →
      (∀ e ∈ envForProfile, StepLink.forEnv e ∈ s.Requires o) ∧
      (∀ rel, StepLink.releaseImages rel ∉ s.Requires o)) ∧
    (StepLink.releaseImages latestReleaseName ∈ s.Requires o ↔
      (s.profile = "" ∧ ∃ step ∈ (s.pre ++ s.test) ++ s.post,
        (o.isPipelineImage step.From || o.buildsImage step.From) = false)) := by
  have hfm : envForProfile.filterMap linkForEnv = envForProfile.map StepLink.forEnv := rfl
  have hneeds := requiresLoop_needs o ((s.pre ++ s.test) ++ s.post) ([], [], false)
  by_cases hprof : s.profile = ""
  · constructor
    · intro hne
      exact absurd hprof hne
    · unfold MultiStageTestStep.Requires
      simp only []
      rw [if_neg (by simpa using hprof)]
      constructor
      · intro hmem
        refine ⟨hprof, ?_⟩
        split at hmem
        next hn =>
          rcases List.mem_append.mp hmem with h1 | h2
          · exact absurd rfl (requires_base_no_release s o _ h1 latestReleaseName)
          · rw [hneeds] at hn
            simp only [Bool.false_or] at hn
            obtain ⟨step, hstep, hpred⟩ := List.any_eq_true.mp hn
            exact ⟨step, hstep, by simpa using hpred⟩
        next hn =>
          exact absurd rfl (requires_base_no_release s o _ hmem latestReleaseName)
      · rintro ⟨-, step, hstep, hext⟩
        have hn : (requiresLoop o ((s.pre ++ s.test) ++ s.post) ([], [], false)).2.2 = true := by
          rw [hneeds]
          simp only [Bool.false_or]
          exact List.any_eq_true.mpr ⟨step, hstep, by simp [hext]⟩
        rw [if_pos hn]
        exact List.mem_append.mpr (Or.inr (by simp))
  · constructor
    · intro _hne
      unfold MultiStageTestStep.Requires
      simp only []
      rw [if_pos (by simpa using hprof)]
      constructor
      · intro e he
        rw [hfm]
        exact List.mem_append.mpr (Or.inr (List.mem_map.mpr ⟨e, he, rfl⟩))
      · intro rel hmem
        rcases List.mem_append.mp hmem with h1 | h2
        · exact absurd rfl (requires_base_no_release s o _ h1 rel)
        · rw [hfm] at h2
          obtain ⟨e, -, he⟩ := List.mem_map.mp h2
          exact StepLink.noConfusion he
    · constructor
      · intro hmem
        unfold MultiStageTestStep.Requires at hmem
        simp only [] at hmem
        rw [if_pos (by simpa using hprof)] at hmem
        rcases List.mem_append.mp hmem with h1 | h2
        · exact absurd rfl (requires_base_no_release s o _ h1 latestReleaseName)
        · rw [hfm] at h2
          obtain ⟨e, -, he⟩ := List.mem_map.mp h2
          exact StepLink.noConfusion he
      · rintro ⟨hp, -⟩
        exact absurd hp hprof

/-- Witness for C7 at concrete inputs: a profiled test gets all three
profile parameter links and no plain release-images link. -/
theorem requires_release_image_policy_witness :
    (∀ e ∈ envForProfile, StepLink.forEnv e ∈ sProf.Requires oW) ∧
    (∀ rel, StepLink.releaseImages rel ∉ sProf.Requires oW) :=
  (requires_release_image_policy sProf oW).1 (by decide)

/-- A list is a prefix of itself followed by anything. -/
theorem isPrefixOf_append_self (l r : List Char) : l.isPrefixOf (l ++ r) = true := by
  induction l with
  | nil => simp [List.isPrefixOf]
  | cons a as ih => simp [List.isPrefixOf, ih]

/-- A string starts with itself followed by anything. -/
theorem strStartsWith_append_self (p r : String) : strStartsWith p (p ++ r) = true := by
  unfold strStartsWith
  rw [String.data_append]
  exact isPrefixOf_append_self p.data r.data

/-- Trimming a leading prefix it just appended returns the tail. -/
theorem strTrimLeading_append_self (p r : String) : strTrimLeading p (p ++ r) = r := by
  unfold strTrimLeading
  rw [if_pos (by rw [strStartsWith_append_self])]
  rcases r with ⟨d⟩
  apply String.ext
  rw [String.data_append]
  exact List.drop_left p.data d

/-- `updC0` only rewrites the head container. -/
theorem updC0_containers (pod : Pod) (f : Container → Container) (c0 : Container)
    (rest : List Container) (hc : pod.Containers = c0 :: rest) :
    (updC0 pod f).Containers = f c0 :: rest := by
  unfold updC0
  rw [hc]

/-- `updC0` leaves the init containers unchanged. -/
theorem updC0_initContainers (pod : Pod) (f : Container → Container) :
    (updC0 pod f).InitContainers = pod.InitContainers := by
  unfold updC0
  cases pod.Containers <;> rfl

/-- `updC0` leaves the volumes unchanged. -/
theorem updC0_volumes (pod : Pod) (f : Container → Container) :
    (updC0 pod f).Volumes = pod.Volumes := by
  unfold updC0
  cases pod.Containers <;> rfl

/-- `addCredentials` only appends volume mounts to the main container and
volumes to the pod; init containers are untouched. -/
theorem addCredentials_shape (creds : List CredentialReference) :
    ∀ (pod : Pod) (c0 : Container) (rest : List Container), pod.Containers = c0 :: rest →
      ∃ vms : List VolumeMount,
        (addCredentials creds pod).Containers =
          { c0 with VolumeMounts := c0.VolumeMounts ++ vms } :: rest ∧
        (addCredentials creds pod).InitContainers = pod.InitContainers ∧
        (∀ v ∈ pod.Volumes, v ∈ (addCredentials creds pod).Volumes) := by
  induction creds with
  | nil =>
    intro pod c0 rest hc
    refine ⟨[], ?_, rfl, fun v hv => hv⟩
    rw [show addCredentials [] pod = pod from rfl, hc]
    rcases c0 with ⟨n, i, cm, a, e, vm, rs⟩
    simp
  | cons cred creds' ih =>
    intro pod c0 rest hc
    have hfold : addCredentials (cred :: creds') pod =
        addCredentials creds'
          (updC0 { pod with Volumes := pod.Volumes ++
              [{ Name := credentialName cred.Namespace cred.Name,
                 VolumeSource := .secret (credentialName cred.Namespace cred.Name) }] }
            (fun c => { c with VolumeMounts := c.VolumeMounts ++
              [{ Name := credentialName cred.Namespace cred.Name,
                 MountPath := cred.MountPath }] })) := rfl
    have hc1 : (updC0 { pod with Volumes := pod.Volumes ++
        [{ Name := credentialName cred.Namespace cred.Name,
           VolumeSource := .secret (credentialName cred.Namespace cred.Name) }] }
        (fun c => { c with VolumeMounts := c.VolumeMounts ++
          [{ Name := credentialName cred.Namespace cred.Name,
             MountPath := cred.MountPath }] })).Containers =
        { c0 with VolumeMounts := c0.VolumeMounts ++
          [{ Name := credentialName cred.Namespace cred.Name,
             MountPath := cred.MountPath }] } :: rest := by
      apply updC0_containers
      exact hc
    obtain ⟨vms', h1, h2, h3⟩ := ih _ _ _ hc1
    refine ⟨[{ Name := credentialName cred.Namespace cred.Name,
               MountPath := cred.MountPath }] ++ vms', ?_, ?_, ?_⟩
    · rw [hfold, h1]
      rcases c0 with ⟨n, i, cm, a, e, vm, rs⟩
      simp
    · rw [hfold, h2, updC0_initContainers]
    · intro v hv
      rw [hfold]
      apply h3
      rw [updC0_volumes]
      exact List.mem_append.mpr (Or.inl hv)

/-- Memberships in the init containers, volumes, and main-container
mounts, environment and args survive `addCredentials`. -/
theorem addCredentials_facts (creds : List CredentialReference) (pod : Pod)
    (ic : Container) (v : Volume) (vm : VolumeMount) (e : EnvVar) (arg : String)
    (c0 : Container) (rest : List Container)
    (hc : pod.Containers = c0 :: rest)
    (hic : ic ∈ pod.InitContainers) (hv : v ∈ pod.Volumes)
    (hvm : vm ∈ c0.VolumeMounts) (he : e ∈ c0.Env) (harg : arg ∈ c0.Args) :
    ic ∈ (addCredentials creds pod).InitContainers ∧
    v ∈ (addCredentials creds pod).Volumes ∧
    ∃ (c0' : Container) (rest' : List Container),
      (addCredentials creds pod).Containers = c0' :: rest' ∧
      vm ∈ c0'.VolumeMounts ∧ e ∈ c0'.Env ∧ arg ∈ c0'.Args := by
  obtain ⟨vms, hC, hI, hV⟩ := addCredentials_shape creds pod c0 rest hc
  refine ⟨by rw [hI]; exact hic, hV v hv, _, rest, hC, ?_, he, harg⟩
  exact List.mem_append.mpr (Or.inl hvm)

/-- The shell interpreter path does not start with the command preamble. -/
theorem strStartsWith_preamble_bash : strStartsWith commandPreamble "/bin/bash" = false := by
  decide

/-- The `-c` flag does not start with the command preamble. -/
theorem strStartsWith_preamble_dashc : strStartsWith commandPreamble "-c" = false := by
  decide

/-- Claim C8: for a built workload of a step that names a CLI release
stream and did not opt into a read-only shared dir, the pod carries an
init step copying the CLI binary from the release-stream-tagged image
into the shared empty `cli` volume, that volume is mounted at the fixed
CLI path in the main container with the path exported via the fixed CLI
environment variable, and the step's wrapped command preamble is
rewritten to append the CLI directory to the search path via a PATH
export referencing the CLI directory variable. -/
theorem cli_injector_spec (s : MultiStageTestStep) (o : Oracles) (js : JobSpec)
    (step : LiteralTestStep) (env : List EnvVar) (hasPrevErrs : Bool) (pod : Pod)
    (hb : buildStepPod s o js step env hasPrevErrs = .built pod)
    (hcli : step.Cli ≠ "") (hro : step.ReadonlySharedDir = false) :
    ({ Name := "inject-cli", Image := o.releaseStreamFor step.Cli ++ ":cli",
       Command := ["/bin/cp"], Args := ["/usr/bin/oc", CliMountPath], Env := [],
       VolumeMounts := [{ Name := "cli", MountPath := CliMountPath }],
       Resources := [] } : Container) ∈ pod.InitContainers ∧
    ({ Name := "cli", VolumeSource := .emptyDir } : Volume) ∈ pod.Volumes ∧
    ∃ (c0 : Container) (rest : List Container), pod.Containers = c0 :: rest ∧
      ({ Name := "cli", MountPath := CliMountPath } : VolumeMount) ∈ c0.VolumeMounts ∧
      ({ Name := CliEnv, Value := CliMountPath } : EnvVar) ∈ c0.Env ∧
      (commandPreamble ++ pathExportLine ++ "\n" ++ step.Commands) ∈ c0.Args := by
  unfold buildStepPod at hb
  split at hb
  · exact absurd hb (by simp)
  · split at hb
    · exact absurd hb (by simp)
    next resources hres =>
      split at hb
      · exact absurd hb (by simp)
      next pod0 hbase =>
        unfold generateBasePod at hbase
        split at hbase
        · exact absurd hbase (by simp)
        · injection hbase with h0
          subst h0
          simp only [] at hb
          split at hb
          · exact absurd hb (by simp)
          next hdep =>
            injection hb with hpod
            subst hpod
            simp only [podAfterBase, addSecretWrapper, updC0, hro, Bool.not_false,
              if_true, List.map_cons, List.map_nil, beq_self_eq_true, if_pos,
              List.nil_append, List.append_nil] at *
            by_cases hpf : s.profile = ""
            · rcases hov : js.Owner with _ | ow <;>
                · simp only [podFinalize, addProfile, addCliInjector, addSecret, updC0,
                    hov, hpf, hcli, ne_eq, not_false_iff, if_true, not_true, if_false,
                    List.map_cons, List.map_nil, strStartsWith_preamble_bash,
                    strStartsWith_preamble_dashc, strStartsWith_append_self,
                    strTrimLeading_append_self, Bool.false_eq_true, if_neg,
                    List.nil_append, List.append_nil]
                  exact addCredentials_facts step.Credentials _ _ _ _ _ _ _ _ rfl
                    (by simp) (by simp) (by simp) (by simp) (by simp)
            · rcases hov : js.Owner with _ | ow <;>
                · simp only [podFinalize, addProfile, addCliInjector, addSecret, updC0,
                    hov, hpf, hcli, ne_eq, not_false_iff, if_true, not_true, if_false,
                    List.map_cons, List.map_nil, strStartsWith_preamble_bash,
                    strStartsWith_preamble_dashc, strStartsWith_append_self,
                    strTrimLeading_append_self, Bool.false_eq_true, if_neg,
                    List.nil_append, List.append_nil]
                  exact addCredentials_facts step.Credentials _ _ _ _ _ _ _ _ rfl
                    (by simp) (by simp) (by simp) (by simp) (by simp)

/-- Witness for C8 at concrete inputs: a step declaring `cli: 4.10`
gets the init copy step, the CLI mount and export, and the PATH rewrite. -/
theorem cli_injector_spec_witness :
    ({ Name := "inject-cli", Image := oW.releaseStreamFor stepCli.Cli ++ ":cli",
       Command := ["/bin/cp"], Args := ["/usr/bin/oc", CliMountPath], Env := [],
       VolumeMounts := [{ Name := "cli", MountPath := CliMountPath }],
       Resources := [] } : Container) ∈
      (extractBuilt (buildStepPod sW oW jsW stepCli [] false)).InitContainers ∧
    ({ Name := "cli", VolumeSource := .emptyDir } : Volume) ∈
      (extractBuilt (buildStepPod sW oW jsW stepCli [] false)).Volumes ∧
    ∃ (c0 : Container) (rest : List Container),
      (extractBuilt (buildStepPod sW oW jsW stepCli [] false)).Containers = c0 :: rest ∧
      ({ Name := "cli", MountPath := CliMountPath } : VolumeMount) ∈ c0.VolumeMounts ∧
      ({ Name := CliEnv, Value := CliMountPath } : EnvVar) ∈ c0.Env ∧
      (commandPreamble ++ pathExportLine ++ "\n" ++ stepCli.Commands) ∈ c0.Args :=
  cli_injector_spec sW oW jsW stepCli [] false
    (extractBuilt (buildStepPod sW oW jsW stepCli [] false)) rfl (by decide) rfl

/-- An identity is present exactly when some stored object carries it. -/
theorem hasKey_iff_exists (c : Cluster) (k : String × String × String) :
    hasKey c k = true ↔ ∃ o ∈ c, o.key = k := by
  simp [hasKey, List.any_eq_true, beq_iff_eq]

/-- Presence of an identity is monotone under appending objects. -/
theorem hasKey_mono_append (c ext : Cluster) (k : String × String × String)
    (h : hasKey c k = true) : hasKey (c ++ ext) k = true := by
  rw [hasKey_iff_exists] at h ⊢
  obtain ⟨o, ho, hk⟩ := h
  exact ⟨o, List.mem_append.mpr (Or.inl ho), hk⟩

/-- An appended object's own identity is present. -/
theorem hasKey_append_singleton (c : Cluster) (o : Obj) :
    hasKey (c ++ [o]) o.key = true := by
  rw [hasKey_iff_exists]
  exact ⟨o, List.mem_append.mpr (Or.inr (by simp)), rfl⟩

/-- Filtering an identity out removes its presence. -/
theorem hasKey_filter_ne (c : Cluster) (k : String × String × String) :
    hasKey (c.filter (fun o => !(o.key == k))) k = false := by
  rw [Bool.eq_false_iff]
  intro h
  rw [hasKey_iff_exists] at h
  obtain ⟨o, ho, hk⟩ := h
  have := (List.mem_filter.mp ho).2
  simp [hk] at this

/-- Filtering an absent identity out changes nothing. -/
theorem filter_eq_self_of_not_hasKey (c : Cluster) (k : String × String × String)
    (h : hasKey c k = false) :
    c.filter (fun o => !(o.key == k)) = c := by
  apply List.filter_eq_self.mpr
  intro o ho
  rw [Bool.eq_false_iff] at h
  simp only [Bool.not_eq_true', beq_eq_false_iff_ne, ne_eq]
  intro hk
  exact h (hasKey_iff_exists c k |>.mpr ⟨o, ho, hk⟩)

/-- Objects with a different identity survive the filter. -/
theorem hasKey_filter_of_ne (c : Cluster) (k k' : String × String × String)
    (hne : k' ≠ k) (h : hasKey c k' = true) :
    hasKey (c.filter (fun o => !(o.key == k))) k' = true := by
  rw [hasKey_iff_exists] at h ⊢
  obtain ⟨o, ho, hk⟩ := h
  refine ⟨o, List.mem_filter.mpr ⟨ho, ?_⟩, hk⟩
  simp [hk, hne]

/-- `getKey` succeeds exactly when the identity is present. -/
theorem getKey_isSome_iff (c : Cluster) (k : String × String × String) :
    (getKey c k).isSome = true ↔ hasKey c k = true := by
  rw [hasKey_iff_exists]
  unfold getKey
  rw [List.find?_isSome]
  simp [beq_iff_eq]

/-- `createSecret` always succeeds: it removes any object under the
shared-secret identity and appends the fresh empty shared secret. -/
theorem createSecret_eq (s : MultiStageTestStep) (js : JobSpec) (c : Cluster) :
    createSecret s js c = .ok (resetSecretState s js c) := by
  unfold createSecret deleteKey createObj resetSecretState
  cases hk : hasKey c (sharedSecret s js).key with
  | true => simp [hasKey_filter_ne]
  | false => simp [hk, filter_eq_self_of_not_hasKey c _ hk]

/-- The mirror-creation loop never fails: "already exists" is tolerated
and is the only possible creation error. -/
theorem createAll_never_fails (l : List (String × Obj)) :
    ∀ c : Cluster, ∃ c', createAll c l = .ok c' := by
  induction l with
  | nil => intro c; exact ⟨c, rfl⟩
  | cons p rest ih =>
    intro c
    rcases p with ⟨n, o⟩
    unfold createAll createObj
    cases hk : hasKey c o.key with
    | true =>
      simp only [if_true]
      exact ih c
    | false =>
      simp only [Bool.false_eq_true, if_false]
      exact ih (c ++ [o])

/-- The mirror-creation loop only appends objects drawn from its input. -/
theorem createAll_extends (l : List (String × Obj)) :
    ∀ (c c' : Cluster), createAll c l = .ok c' →
      ∃ ext, c' = c ++ ext ∧ ∀ o ∈ ext, ∃ p ∈ l, o = p.2 := by
  induction l with
  | nil =>
    intro c c' h
    injection h with h
    exact ⟨[], by simp [h.symm], by simp⟩
  | cons p rest ih =>
    intro c c' h
    rcases p with ⟨n, o⟩
    unfold createAll createObj at h
    cases hk : hasKey c o.key with
    | true =>
      rw [hk] at h
      simp only [if_true] at h
      obtain ⟨ext, he, hm⟩ := ih c c' h
      refine ⟨ext, he, fun x hx => ?_⟩
      obtain ⟨q, hq, hqe⟩ := hm x hx
      exact ⟨q, List.mem_cons_of_mem _ hq, hqe⟩
    | false =>
      rw [hk] at h
      simp only [Bool.false_eq_true, if_false] at h
      obtain ⟨ext, he, hm⟩ := ih (c ++ [o]) c' h
      refine ⟨[o] ++ ext, by rw [he, List.append_assoc], ?_⟩
      intro x hx
      rcases List.mem_append.mp hx with h1 | h2
      · simp only [List.mem_singleton] at h1
        exact ⟨(n, o), List.mem_cons_self _ _, h1⟩
      · obtain ⟨q, hq, hqe⟩ := hm x h2
        exact ⟨q, List.mem_cons_of_mem _ hq, hqe⟩

/-- After the mirror-creation loop, every input identity is present. -/
theorem createAll_keys_present (l : List (String × Obj)) :
    ∀ (c c' : Cluster), createAll c l = .ok c' →
      ∀ p ∈ l, hasKey c' p.2.key = true := by
  induction l with
  | nil =>
    intro c c' h p hp
    simp at hp
  | cons q rest ih =>
    intro c c' h p hp
    rcases q with ⟨n, o⟩
    unfold createAll createObj at h
    cases hk : hasKey c o.key with
    | true =>
      rw [hk] at h
      simp only [if_true] at h
      rcases List.mem_cons.mp hp with h1 | h2
      · obtain ⟨ext, he, -⟩ := createAll_extends rest c c' h
        subst h1
        exact he ▸ hasKey_mono_append c ext _ hk
      · exact ih c c' h p h2
    | false =>
      rw [hk] at h
      simp only [Bool.false_eq_true, if_false] at h
      rcases List.mem_cons.mp hp with h1 | h2
      · obtain ⟨ext, he, -⟩ := createAll_extends rest (c ++ [o]) c' h
        subst h1
        exact he ▸ hasKey_mono_append (c ++ [o]) ext _ (hasKey_append_singleton c o)
      · exact ih (c ++ [o]) c' h p h2

/-- If every input identity is already present, the mirror-creation loop
is a no-op (every create hits "already exists"). -/
theorem createAll_noop (l : List (String × Obj)) :
    ∀ c : Cluster, (∀ p ∈ l, hasKey c p.2.key = true) → createAll c l = .ok c := by
  induction l with
  | nil => intro c _; rfl
  | cons q rest ih =>
    intro c hall
    rcases q with ⟨n, o⟩
    unfold createAll createObj
    rw [hall (n, o) (List.mem_cons_self _ _)]
    simp only [if_true]
    exact ih c (fun p hp => hall p (List.mem_cons_of_mem _ hp))

/-- The mirror-creation loop never adds an object under an identity that
was already present. -/
theorem createAll_no_new_key (l : List (String × Obj)) :
    ∀ (c c' : Cluster), createAll c l = .ok c' →
      ∀ o ∈ c', o ∈ c ∨ hasKey c o.key = false := by
  induction l with
  | nil =>
    intro c c' h o ho
    injection h with h
    exact Or.inl (h ▸ ho)
  | cons q rest ih =>
    intro c c' h o ho
    rcases q with ⟨n, ob⟩
    unfold createAll createObj at h
    cases hk : hasKey c ob.key with
    | true =>
      rw [hk] at h
      simp only [if_true] at h
      exact ih c c' h o ho
    | false =>
      rw [hk] at h
      simp only [Bool.false_eq_true, if_false] at h
      rcases ih (c ++ [ob]) c' h o ho with h1 | h2
      · rcases List.mem_append.mp h1 with ha | hb
        · exact Or.inl ha
        · simp at hb
          subst hb
          exact Or.inr hk
      · rw [Bool.eq_false_iff] at h2 ⊢
        exact Or.inr (fun hc => h2 (hasKey_mono_append c [ob] o.key hc))

/-- Removing presence is antitone under appending objects. -/
theorem hasKey_false_of_append (c ext : Cluster) (k : String × String × String)
    (h : hasKey (c ++ ext) k = false) : hasKey c k = false := by
  rw [Bool.eq_false_iff] at h ⊢
  exact fun hc => h (hasKey_mono_append c ext k hc)

/-- Membership in a Go-map assignment: the entry is old or the new one. -/
theorem assocSet_mem (k : String) (v : Obj) :
    ∀ (acc : List (String × Obj)) (p : String × Obj),
      p ∈ assocSet acc k v → p ∈ acc ∨ p = (k, v) := by
  intro acc
  induction acc with
  | nil =>
    intro p hp
    simp only [assocSet, List.mem_singleton] at hp
    exact Or.inr hp
  | cons q rest ih =>
    intro p hp
    rcases q with ⟨k1, v1⟩
    unfold assocSet at hp
    by_cases hk : k1 = k
    · rw [if_pos hk] at hp
      rcases List.mem_cons.mp hp with h1 | h2
      · exact Or.inr h1
      · exact Or.inl (List.mem_cons_of_mem _ h2)
    · rw [if_neg hk] at hp
      rcases List.mem_cons.mp hp with h1 | h2
      · exact Or.inl (h1 ▸ List.mem_cons_self _ _)
      · rcases ih p h2 with ha | hb
        · exact Or.inl (List.mem_cons_of_mem _ ha)
        · exact Or.inr hb

/-- A Go-map assignment keeps every existing key. -/
theorem assocSet_fst_preserved (k : String) (v : Obj) :
    ∀ (acc : List (String × Obj)) (a : String),
      (∃ p ∈ acc, p.1 = a) → ∃ p ∈ assocSet acc k v, p.1 = a := by
  intro acc
  induction acc with
  | nil =>
    intro a ha
    obtain ⟨p, hp, -⟩ := ha
    simp at hp
  | cons q rest ih =>
    intro a ha
    obtain ⟨p, hp, hpa⟩ := ha
    rcases q with ⟨k1, v1⟩
    unfold assocSet
    by_cases hk : k1 = k
    · rw [if_pos hk]
      rcases List.mem_cons.mp hp with h1 | h2
      · subst h1
        exact ⟨(k, v), List.mem_cons_self _ _, hk ▸ hpa⟩
      · exact ⟨p, List.mem_cons_of_mem _ h2, hpa⟩
    · rw [if_neg hk]
      rcases List.mem_cons.mp hp with h1 | h2
      · exact ⟨(k1, v1), List.mem_cons_self _ _, h1 ▸ hpa⟩
      · obtain ⟨p', hp', hpa'⟩ := ih a ⟨p, h2, hpa⟩
        exact ⟨p', List.mem_cons_of_mem _ hp', hpa'⟩

/-- A Go-map assignment makes its own key present. -/
theorem assocSet_fst_self (k : String) (v : Obj) :
    ∀ acc : List (String × Obj), ∃ p ∈ assocSet acc k v, p.1 = k := by
  intro acc
  induction acc with
  | nil => exact ⟨(k, v), List.mem_singleton.mpr rfl, rfl⟩
  | cons q rest ih =>
    rcases q with ⟨k1, v1⟩
    unfold assocSet
    by_cases hk : k1 = k
    · rw [if_pos hk]
      exact ⟨(k, v), List.mem_cons_self _ _, rfl⟩
    · rw [if_neg hk]
      obtain ⟨p, hp, hpk⟩ := ih
      exact ⟨p, List.mem_cons_of_mem _ hp, hpk⟩

/-- A successful `toCreate` construction implies every donor secret was
readable. -/
theorem buildToCreate_sources (js : JobSpec) (c : Cluster) :
    ∀ (creds : List CredentialReference) (acc l : List (String × Obj)),
      buildToCreate js c creds acc = .ok l →
      ∀ cred ∈ creds, hasKey c (sourceKey cred) = true := by
  intro creds
  induction creds with
  | nil =>
    intro acc l h cred hc
    simp at hc
  | cons cr rest ih =>
    intro acc l h cred hc
    unfold buildToCreate at h
    cases hg : getKey c (sourceKey cr) with
    | none =>
      rw [hg] at h
      exact absurd h (by simp)
    | some raw =>
      rw [hg] at h
      rcases List.mem_cons.mp hc with h1 | h2
      · subst h1
        rw [← getKey_isSome_iff, hg]
        rfl
      · exact ih _ l h cred h2

/-- When every donor secret is readable, `toCreate` construction
succeeds. -/
theorem buildToCreate_ok_of_sources (js : JobSpec) (c : Cluster) :
    ∀ (creds : List CredentialReference) (acc : List (String × Obj)),
      (∀ cred ∈ creds, hasKey c (sourceKey cred) = true) →
      ∃ l, buildToCreate js c creds acc = .ok l := by
  intro creds
  induction creds with
  | nil =>
    intro acc _
    exact ⟨acc, rfl⟩
  | cons cr rest ih =>
    intro acc hall
    have hk := hall cr (List.mem_cons_self _ _)
    rw [← getKey_isSome_iff] at hk
    cases hg : getKey c (sourceKey cr) with
    | none =>
      rw [hg] at hk
      simp at hk
    | some raw =>
      unfold buildToCreate
      rw [hg]
      exact ih _ (fun cred hc => hall cred (List.mem_cons_of_mem _ hc))

/-- Every entry of the `toCreate` map is a mirror stored in the test
namespace under its own entry name. -/
theorem buildToCreate_accOK (js : JobSpec) (c : Cluster) :
    ∀ (creds : List CredentialReference) (acc l : List (String × Obj)),
      (∀ p ∈ acc, p.2.key = ("Secret", js.Namespace, p.1)) →
      buildToCreate js c creds acc = .ok l →
      ∀ p ∈ l, p.2.key = ("Secret", js.Namespace, p.1) := by
  intro creds
  induction creds with
  | nil =>
    intro acc l hacc h
    injection h with h
    exact h ▸ hacc
  | cons cr rest ih =>
    intro acc l hacc h
    unfold buildToCreate at h
    cases hg : getKey c (sourceKey cr) with
    | none =>
      rw [hg] at h
      exact absurd h (by simp)
    | some raw =>
      rw [hg] at h
      refine ih _ l ?_ h
      intro p hp
      rcases assocSet_mem _ _ acc p hp with ha | hb
      · exact hacc p ha
      · subst hb
        rfl

/-- Every entry name of the `toCreate` map is the derived name of some
declared credential (when starting from the empty map, i.e. the given
accumulator). -/
theorem buildToCreate_names (js : JobSpec) (c : Cluster) :
    ∀ (creds : List CredentialReference) (acc l : List (String × Obj)),
      buildToCreate js c creds acc = .ok l →
      ∀ p ∈ l, (∃ q ∈ acc, q.1 = p.1) ∨
        ∃ cred ∈ creds, p.1 = credentialName cred.Namespace cred.Name := by
  intro creds
  induction creds with
  | nil =>
    intro acc l h p hp
    injection h with h
    exact Or.inl ⟨p, h ▸ hp, rfl⟩
  | cons cr rest ih =>
    intro acc l h p hp
    unfold buildToCreate at h
    cases hg : getKey c (sourceKey cr) with
    | none =>
      rw [hg] at h
      exact absurd h (by simp)
    | some raw =>
      rw [hg] at h
      rcases ih _ l h p hp with ⟨q, hq, hqe⟩ | ⟨cred, hcred, hname⟩
      · rcases assocSet_mem _ _ acc q hq with ha | hb
        · exact Or.inl ⟨q, ha, hqe⟩
        · subst hb
          exact Or.inr ⟨cr, List.mem_cons_self _ _, hqe.symm⟩
      · exact Or.inr ⟨cred, List.mem_cons_of_mem _ hcred, hname⟩

/-- `toCreate` construction keeps every accumulator key. -/
theorem buildToCreate_fst_mono (js : JobSpec) (c : Cluster) :
    ∀ (creds : List CredentialReference) (acc l : List (String × Obj)) (a : String),
      buildToCreate js c creds acc = .ok l →
      (∃ q ∈ acc, q.1 = a) → ∃ p ∈ l, p.1 = a := by
  intro creds
  induction creds with
  | nil =>
    intro acc l a h ha
    injection h with h
    exact h ▸ ha
  | cons cr rest ih =>
    intro acc l a h ha
    unfold buildToCreate at h
    cases hg : getKey c (sourceKey cr) with
    | none =>
      rw [hg] at h
      exact absurd h (by simp)
    | some raw =>
      rw [hg] at h
      exact ih _ l a h (assocSet_fst_preserved _ _ acc a ha)

/-- Every declared credential's derived name appears in the `toCreate`
map. -/
theorem buildToCreate_covers (js : JobSpec) (c : Cluster) :
    ∀ (creds : List CredentialReference) (acc l : List (String × Obj)),
      buildToCreate js c creds acc = .ok l →
      ∀ cred ∈ creds, ∃ p ∈ l, p.1 = credentialName cred.Namespace cred.Name := by
  intro creds
  induction creds with
  | nil =>
    intro acc l h cred hc
    simp at hc
  | cons cr rest ih =>
    intro acc l h cred hc
    unfold buildToCreate at h
    cases hg : getKey c (sourceKey cr) with
    | none =>
      rw [hg] at h
      exact absurd h (by simp)
    | some raw =>
      rw [hg] at h
      rcases List.mem_cons.mp hc with h1 | h2
      · subst h1
        exact buildToCreate_fst_mono js c rest _ l _ h (assocSet_fst_self _ _ acc)
      · exact ih _ l h cred h2

/-- A successful `createCredentials` decomposes into a successful
`toCreate` construction followed by the creation loop. -/
theorem createCredentials_inv (s : MultiStageTestStep) (js : JobSpec) (c c' : Cluster)
    (h : createCredentials s js c = .ok c') :
    ∃ l, buildToCreate js c (stepCredentials s) [] = .ok l ∧ createAll c l = .ok c' := by
  unfold createCredentials at h
  cases hb : buildToCreate js c (stepCredentials s) [] with
  | error e =>
    rw [hb] at h
    exact absurd h (by simp)
  | ok l =>
    rw [hb] at h
    exact ⟨l, rfl, h⟩

/-- The `check err == nil || IsAlreadyExists(err)` creation either hits
the existing object and is a no-op, or appends the fresh object. -/
theorem createIgnoreExists_spec (c : Cluster) (o : Obj) :
    ∃ c', createIgnoreExists c o = .ok c' ∧
      (∃ ext, c' = c ++ ext ∧ ∀ x ∈ ext, x = o) ∧
      hasKey c' o.key = true ∧
      (∀ x ∈ c', x ∈ c ∨ hasKey c x.key = false) ∧
      (hasKey c o.key = true → c' = c) := by
  unfold createIgnoreExists createObj
  cases hk : hasKey c o.key with
  | true =>
    refine ⟨c, by simp, ⟨[], by simp, by simp⟩, hk, fun x hx => Or.inl hx, fun _ => rfl⟩
  | false =>
    refine ⟨c ++ [o], by simp, ⟨[o], rfl, by simp⟩, hasKey_append_singleton c o, ?_, ?_⟩
    · intro x hx
      rcases List.mem_append.mp hx with h1 | h2
      · exact Or.inl h1
      · simp only [List.mem_singleton] at h2
        subst h2
        exact Or.inr hk
    · intro habs
      exact absurd habs (by simp)

/-- `setupRBAC` always succeeds, only appends its three objects, leaves
their identities present, never duplicates an existing identity, and is a
no-op when all three identities already exist. -/
theorem setupRBAC_spec (s : MultiStageTestStep) (js : JobSpec) (c : Cluster) :
    ∃ c', setupRBAC s js c = .ok c' ∧
      (∃ ext, c' = c ++ ext) ∧
      hasKey c' (saObj s js).key = true ∧
      hasKey c' (roleObj s js).key = true ∧
      hasKey c' (bindingObj s js).key = true ∧
      (∀ x ∈ c', x ∈ c ∨ hasKey c x.key = false) ∧
      ((hasKey c (saObj s js).key = true ∧ hasKey c (roleObj s js).key = true ∧
        hasKey c (bindingObj s js).key = true) → c' = c) := by
  obtain ⟨c1, he1, ⟨ext1, hext1, -⟩, hk1, hnn1, hid1⟩ := createIgnoreExists_spec c (saObj s js)
  obtain ⟨c2, he2, ⟨ext2, hext2, -⟩, hk2, hnn2, hid2⟩ := createIgnoreExists_spec c1 (roleObj s js)
  obtain ⟨c3, he3, ⟨ext3, hext3, -⟩, hk3, hnn3, hid3⟩ := createIgnoreExists_spec c2 (bindingObj s js)
  refine ⟨c3, ?_, ?_, ?_, ?_, hk3, ?_, ?_⟩
  · unfold setupRBAC
    rw [he1]
    simp only []
    rw [he2]
    simp only []
    exact he3
  · refine ⟨ext1 ++ (ext2 ++ ext3), ?_⟩
    rw [hext3, hext2, hext1]
    simp [List.append_assoc]
  · rw [hext3, hext2]
    exact hasKey_mono_append _ _ _ (hasKey_mono_append _ _ _ hk1)
  · rw [hext3]
    exact hasKey_mono_append _ _ _ hk2
  · intro x hx
    rcases hnn3 x hx with h1 | h2
    · rcases hnn2 x h1 with h3 | h4
      · exact hnn1 x h3
      · exact Or.inr (hasKey_false_of_append _ _ _ (hext1 ▸ h4))
    · have : hasKey c1 x.key = false := hasKey_false_of_append _ _ _ (hext2 ▸ h2)
      exact Or.inr (hasKey_false_of_append _ _ _ (hext1 ▸ this))
  · rintro ⟨ha, hr, hb⟩
    have e1 : c1 = c := hid1 ha
    subst e1
    have e2 : c2 = c1 := hid2 hr
    subst e2
    exact hid3 hb

/-- The fresh shared secret is in the reset state. -/
theorem mem_resetSecretState_shared (s : MultiStageTestStep) (js : JobSpec) (c : Cluster) :
    sharedSecret s js ∈ resetSecretState s js c :=
  List.mem_append.mpr (Or.inr (List.mem_singleton.mpr rfl))

/-- The shared-secret identity is present in the reset state. -/
theorem hasKey_resetSecretState_shared (s : MultiStageTestStep) (js : JobSpec) (c : Cluster) :
    hasKey (resetSecretState s js c) (sharedSecret s js).key = true :=
  hasKey_append_singleton _ _

/-- Every identity present before a reset is present after it (the
shared-secret identity via the fresh secret, the rest untouched). -/
theorem hasKey_resetSecretState_keep (s : MultiStageTestStep) (js : JobSpec) (c : Cluster)
    (k : String × String × String) (h : hasKey c k = true) :
    hasKey (resetSecretState s js c) k = true := by
  by_cases hek : k = (sharedSecret s js).key
  · subst hek
    exact hasKey_resetSecretState_shared s js c
  · exact hasKey_mono_append _ _ _ (hasKey_filter_of_ne c _ k hek h)

/-- An object in the reset state was present before or is the fresh
shared secret. -/
theorem mem_resetSecretState_cases (s : MultiStageTestStep) (js : JobSpec) (c : Cluster)
    (x : Obj) (h : x ∈ resetSecretState s js c) : x ∈ c ∨ x = sharedSecret s js := by
  rcases List.mem_append.mp h with h1 | h2
  · exact Or.inl (List.mem_filter.mp h1).1
  · exact Or.inr (List.mem_singleton.mp h2)

/-- An object under a different identity survives the reset. -/
theorem mem_resetSecretState_of (s : MultiStageTestStep) (js : JobSpec) (c : Cluster)
    (x : Obj) (hx : x ∈ c) (hk : x.key ≠ (sharedSecret s js).key) :
    x ∈ resetSecretState s js c :=
  List.mem_append.mpr (Or.inl (List.mem_filter.mpr ⟨hx, by simp [hk]⟩))

/-- The only object under the shared-secret identity in the reset state
is the fresh shared secret. -/
theorem resetSecretState_unique (s : MultiStageTestStep) (js : JobSpec) (c : Cluster)
    (x : Obj) (h : x ∈ resetSecretState s js c)
    (hk : x.key = (sharedSecret s js).key) : x = sharedSecret s js := by
  rcases List.mem_append.mp h with h1 | h2
  · have := (List.mem_filter.mp h1).2
    rw [hk] at this
    simp at this
  · exact List.mem_singleton.mp h2

/-- Claim C6: access provisioning (shared-secret reset, credential
mirroring, RBAC creation) is idempotent: a second invocation with no
intervening state change produces no error and yields the same final
object set; the second run's creations all hit "already exists" and its
shared-secret delete finds the secret, both treated as success. -/
theorem provision_idempotent (s : MultiStageTestStep) (js : JobSpec) (c c₁ : Cluster)
    (h : provision s js c = .ok c₁) :
    ∃ c₂, provision s js c₁ = .ok c₂ ∧ ∀ x : Obj, x ∈ c₂ ↔ x ∈ c₁ := by
  unfold provision at h
  rw [createSecret_eq] at h
  simp only [] at h
  cases hcc : createCredentials s js (resetSecretState s js c) with
  | error e =>
    rw [hcc] at h
    exact absurd h (by simp)
  | ok c'' =>
    rw [hcc] at h
    obtain ⟨l₁, hbt₁, hca₁⟩ := createCredentials_inv s js _ c'' hcc
    obtain ⟨c₃, he₃, ⟨extR, hextR⟩, hksa, hksr, hksb, hnnR, -⟩ := setupRBAC_spec s js c''
    have hc₃ : c₃ = c₁ := by
      have h2 := he₃.symm.trans h
      injection h2
    rw [hc₃] at hextR hksa hksr hksb hnnR
    obtain ⟨extC, hextC, -⟩ := createAll_extends l₁ _ c'' hca₁
    have hkc' : hasKey (resetSecretState s js c) (sharedSecret s js).key = true :=
      hasKey_resetSecretState_shared s js c
    have hkc'' : hasKey c'' (sharedSecret s js).key = true := by
      rw [hextC]
      exact hasKey_mono_append _ _ _ hkc'
    have hkc₁ : hasKey c₁ (sharedSecret s js).key = true := by
      rw [hextR]
      exact hasKey_mono_append _ _ _ hkc''
    have hshc₁ : sharedSecret s js ∈ c₁ := by
      rw [hextR, hextC]
      exact List.mem_append.mpr (Or.inl (List.mem_append.mpr
        (Or.inl (mem_resetSecretState_shared s js c))))
    have huniq : ∀ x ∈ c₁, x.key = (sharedSecret s js).key → x = sharedSecret s js := by
      intro x hx hxk
      rcases hnnR x hx with h1 | h2
      · rcases createAll_no_new_key l₁ _ c'' hca₁ x h1 with h3 | h4
        · exact resetSecretState_unique s js c x h3 hxk
        · rw [hxk, hkc'] at h4
          exact absurd h4 (by simp)
      · rw [hxk, hkc''] at h2
        exact absurd h2 (by simp)
    have hl₁keys : ∀ p ∈ l₁, hasKey c₁ p.2.key = true := by
      intro p hp
      have hk := createAll_keys_present l₁ _ c'' hca₁ p hp
      rw [hextR]
      exact hasKey_mono_append _ _ _ hk
    have hsrc₁ : ∀ cred ∈ stepCredentials s, hasKey c₁ (sourceKey cred) = true := by
      intro cred hcred
      have hk := buildToCreate_sources js _ (stepCredentials s) [] l₁ hbt₁ cred hcred
      rw [hextR, hextC]
      exact hasKey_mono_append _ _ _ (hasKey_mono_append _ _ _ hk)
    have hkeep : ∀ k, hasKey c₁ k = true → hasKey (resetSecretState s js c₁) k = true :=
      fun k hk => hasKey_resetSecretState_keep s js c₁ k hk
    obtain ⟨l₂, hbt₂⟩ := buildToCreate_ok_of_sources js (resetSecretState s js c₁)
      (stepCredentials s) [] (fun cred hcred => hkeep _ (hsrc₁ cred hcred))
    have hl₂keys : ∀ p ∈ l₂, hasKey (resetSecretState s js c₁) p.2.key = true := by
      intro p hp
      rcases buildToCreate_names js _ (stepCredentials s) [] l₂ hbt₂ p hp with
        ⟨q, hq, -⟩ | ⟨cred, hcred, hname⟩
      · simp at hq
      · obtain ⟨q, hq, hqname⟩ :=
          buildToCreate_covers js _ (stepCredentials s) [] l₁ hbt₁ cred hcred
        have hpk := buildToCreate_accOK js _ (stepCredentials s) [] l₂ (by simp) hbt₂ p hp
        have hqk := buildToCreate_accOK js _ (stepCredentials s) [] l₁ (by simp) hbt₁ q hq
        have hkeq : p.2.key = q.2.key := by rw [hpk, hqk, hname, hqname]
        rw [hkeq]
        exact hkeep _ (hl₁keys q hq)
    have hcc₂ : createCredentials s js (resetSecretState s js c₁) =
        .ok (resetSecretState s js c₁) := by
      unfold createCredentials
      rw [hbt₂]
      exact createAll_noop l₂ _ hl₂keys
    obtain ⟨c₃', he₃', -, -, -, -, -, hid'⟩ := setupRBAC_spec s js (resetSecretState s js c₁)
    have hc₃' : c₃' = resetSecretState s js c₁ :=
      hid' ⟨hkeep _ hksa, hkeep _ hksr, hkeep _ hksb⟩
    refine ⟨resetSecretState s js c₁, ?_, ?_⟩
    · unfold provision
      rw [createSecret_eq]
      simp only []
      rw [hcc₂]
      simp only []
      rw [he₃', hc₃']
    · intro x
      constructor
      · intro hx
        rcases mem_resetSecretState_cases s js c₁ x hx with h1 | h2
        · exact h1
        · exact h2 ▸ hshc₁
      · intro hx
        by_cases hxk : x.key = (sharedSecret s js).key
        · rw [huniq x hx hxk]
          exact mem_resetSecretState_shared s js c₁
        · exact mem_resetSecretState_of s js c₁ x hx hxk

/-- Witness for C6: provisioning a concrete test (one credential, donor
secret present) twice succeeds and the second run leaves the object set
unchanged. -/
theorem provision_idempotent_witness :
    ∃ c₂, provision sCred jsW (extractCluster (provision sCred jsW cW)) = .ok c₂ ∧
      ∀ x : Obj, x ∈ c₂ ↔ x ∈ extractCluster (provision sCred jsW cW) :=
  provision_idempotent sCred jsW cW (extractCluster (provision sCred jsW cW)) rfl

/-- Witness for the amended C10 theorem at concrete inputs. -/
theorem absent_flags_no_skip_witness :
    (stepPods sW oW jsW [] true stepSetup ≠ [] ∨
     stepErrs sW oW jsW [] true stepSetup ≠ []) ∧
    (∀ (s2 : MultiStageTestStep) (o2 : Oracles) (js2 : JobSpec) (step2 : LiteralTestStep)
        (env2 : List EnvVar) (h2 : Bool),
      buildStepPod s2 o2 js2 step2 env2 h2 = .skipped →
        s2.allowSkipOnSuccess = some true ∧ step2.OptionalOnSuccess = some true ∧
          h2 = false) :=
  absent_flags_no_skip sW oW jsW stepSetup [] true (Or.inl rfl)

end MultiStage
